import Mathlib

/-!
# Implicit viscosity solver of Weiler et al. 2018 (SPlisHSPlasH)

A shallow embedding of `SPlisHSPlasH/Viscosity/Viscosity_Weiler2018.cpp`.

Modelling conventions

* `Real` is an exact field `K` (the theorems hold for every field, the concrete
  evaluations are carried out over `ℚ`); rounding is not modelled.
* `Vector3r` is `Fin 3 → K`, `Matrix3r` is `Matrix (Fin 3) (Fin 3) K`.
* The raw buffers `const Real* vec` and `Real* result` are coefficient accessors
  `Nat → K`; a store `result[k] = y` is `Function.update result k y`.
* The fluid model, the time manager and the conjugate gradient solver are
  collaborators whose code is not part of the translated file; they appear as
  records of the accessors that the translated code calls.
* Particle indices and counters are natural numbers (they are assumed to fit
  the machine types `int` and `unsigned int`).
* `std::vector::operator[]` out of range has no defined behaviour; `step`
  returns `none` in that case.
* The OpenMP loops write index-disjoint slots and are modelled as sequential
  loops in index order.
-/

namespace SPH

/-- Three-component vector of reals (`Vector3r`). -/
abbrev Vector3r (K : Type) := Fin 3 → K

/-- Three by three matrix of reals (`Matrix3r`). -/
abbrev Matrix3r (K : Type) := Matrix (Fin 3) (Fin 3) K

/-- The accessor of the global time manager used by the solver. -/
structure TimeManager (K : Type) where
  getTimeStepSize : K

/-- The accessors of `FluidModel` that the viscosity solver calls.  The first
argument of the two-index accessors is the point set (`0` is the fluid). -/
structure FluidModel (K : Type) where
  numParticles : Nat
  numActiveParticles : Nat
  getSupportRadius : K
  density0 : K
  numberOfPointSets : Nat
  numberOfNeighbors : Nat → Nat → Nat
  getNeighbor : Nat → Nat → Nat → Nat
  getPosition : Nat → Nat → Vector3r K
  getVelocity : Nat → Nat → Vector3r K
  getDensity : Nat → K
  getMass : Nat → K
  getBoundaryPsi : Nat → Nat → K
  gradW : Vector3r K → Vector3r K
  getAcceleration : Nat → Vector3r K

/-- The members of `Viscosity_Weiler2018` (with `m_model` and `m_viscosity`
inherited from `ViscosityBase`). -/
structure Viscosity_Weiler2018 (K : Type) where
  m_model : FluidModel K
  m_viscosity : K
  m_boundaryViscosity : K
  m_maxIter : Nat
  m_maxError : K
  m_iterations : Nat
  m_vDiff : List (Vector3r K)

variable {K : Type} [Field K]

/-- The three coefficients starting at `vec[3 * i]`
(`Eigen::Map<const Vector3r>(&vec[3 * i])`). -/
def mapVector3r (vec : Nat → K) (i : Nat) : Vector3r K :=
  fun k => vec (3 * i + k.val)

/-- The value of `a.dot(b)`. -/
def dot (a b : Vector3r K) : K :=
  a 0 * b 0 + a 1 * b 1 + a 2 * b 2

/-- The value of `a.squaredNorm()`. -/
def squaredNorm (a : Vector3r K) : K :=
  dot a a

/-- The outer product `a * b.transpose()`. -/
def outer (a b : Vector3r K) : Matrix3r K :=
  fun r c => a r * b c

/-- The loop `for (j = 0; j < n; j++) acc = body j acc`. -/
def forLoop {σ : Type} (n : Nat) (body : Nat → σ → σ) (init : σ) : σ :=
  (List.range n).foldl (fun acc j => body j acc) init

/-- The loop `for (pid = 1; pid < n; pid++) acc = body pid acc`. -/
def forLoopFrom1 {σ : Type} (n : Nat) (body : Nat → σ → σ) (init : σ) : σ :=
  (List.range (n - 1)).foldl (fun acc p => body (p + 1) acc) init

namespace Viscosity_Weiler2018

/-- The summand of the fluid neighbour loop of `matrixVecProd` (line 89) for the
`j`-th neighbour of particle `i`. -/
def matrixVecProd_fluidTerm (visco : Viscosity_Weiler2018 K)
    (vec : Nat → K) (i j : Nat) : Vector3r K :=
  let model := visco.m_model
  let h := model.getSupportRadius
  let h2 := h * h
  let mu := visco.m_viscosity
  let xi := model.getPosition 0 i
  let vi := mapVector3r vec i
  let neighborIndex := model.getNeighbor 0 i j
  let xj := model.getPosition 0 neighborIndex
  let density_j := model.getDensity neighborIndex
  let gradW := model.gradW (xi - xj)
  let vj := mapVector3r vec neighborIndex
  let xixj := xi - xj
  (10 * mu * (model.getMass neighborIndex / density_j) * dot (vi - vj) xixj
      / (squaredNorm xixj + 1 / 100 * h2)) • gradW

/-- The summand of the boundary neighbour loop of `matrixVecProd` (line 101) for
the `j`-th neighbour of particle `i` in point set `pid`. -/
def matrixVecProd_boundaryTerm (visco : Viscosity_Weiler2018 K)
    (vec : Nat → K) (i pid j : Nat) : Vector3r K :=
  let model := visco.m_model
  let h := model.getSupportRadius
  let h2 := h * h
  let mub := visco.m_boundaryViscosity
  let xi := model.getPosition 0 i
  let density_i := model.getDensity i
  let vi := mapVector3r vec i
  let neighborIndex := model.getNeighbor pid i j
  let xj := model.getPosition pid neighborIndex
  let vj := model.getVelocity pid neighborIndex
  let gradW := model.gradW (xi - xj)
  let xixj := xi - xj
  (10 * mub * (model.getBoundaryPsi pid neighborIndex / density_i) * dot (vi - vj) xixj
      / (squaredNorm xixj + 1 / 100 * h2)) • gradW

/-- The accumulator `ai` of `matrixVecProd` after the two neighbour loops
(lines 74 to 103). -/
def matrixVecProd_ai (visco : Viscosity_Weiler2018 K)
    (vec : Nat → K) (i : Nat) : Vector3r K :=
  let model := visco.m_model
  let ai : Vector3r K := 0
  let ai := forLoop (model.numberOfNeighbors 0 i)
    (fun j ai => ai + matrixVecProd_fluidTerm visco vec i j) ai
  forLoopFrom1 model.numberOfPointSets
    (fun pid ai => forLoop (model.numberOfNeighbors pid i)
      (fun j ai => ai + matrixVecProd_boundaryTerm visco vec i pid j) ai) ai

/-- The body of the particle loop of `matrixVecProd` (lines 73 to 107): the
three stores into `result`. -/
def matrixVecProd_body (tm : TimeManager K) (visco : Viscosity_Weiler2018 K)
    (vec : Nat → K) (i : Nat) (result : Nat → K) : Nat → K :=
  let model := visco.m_model
  let dt := tm.getTimeStepSize
  let ai := matrixVecProd_ai visco vec i
  let density_i := model.getDensity i
  let result := Function.update result (3 * i) (vec (3 * i) - dt / density_i * ai 0)
  let result := Function.update result (3 * i + 1) (vec (3 * i + 1) - dt / density_i * ai 1)
  Function.update result (3 * i + 2) (vec (3 * i + 2) - dt / density_i * ai 2)

/-- The function `Viscosity_Weiler2018::matrixVecProd`: the contents of the
buffer `result` after the call. -/
def matrixVecProd (tm : TimeManager K) (vec : Nat → K) (result : Nat → K)
    (visco : Viscosity_Weiler2018 K) : Nat → K :=
  let numParticles := visco.m_model.numActiveParticles
  forLoop numParticles (matrixVecProd_body tm visco vec) result

/-- The summand `10.0 * mu * (m_j / density_j) / (...) * (gradW * xixj.transpose())`
of the fluid neighbour loop of `diagonalMatrixElement` (lines 137 and 181). -/
def diagonalMatrixElement_fluidTerm (visco : Viscosity_Weiler2018 K)
    (row j : Nat) : Matrix3r K :=
  let model := visco.m_model
  let h := model.getSupportRadius
  let h2 := h * h
  let mu := visco.m_viscosity
  let xi := model.getPosition 0 row
  let neighborIndex := model.getNeighbor 0 row j
  let xj := model.getPosition 0 neighborIndex
  let density_j := model.getDensity neighborIndex
  let gradW := model.gradW (xi - xj)
  let xixj := xi - xj
  (10 * mu * (model.getMass neighborIndex / density_j)
      / (squaredNorm xixj + 1 / 100 * h2)) • outer gradW xixj

/-- The summand of the boundary neighbour loop of `diagonalMatrixElement`
(lines 149 and 194). -/
def diagonalMatrixElement_boundaryTerm (visco : Viscosity_Weiler2018 K)
    (row pid j : Nat) : Matrix3r K :=
  let model := visco.m_model
  let h := model.getSupportRadius
  let h2 := h * h
  let mub := visco.m_boundaryViscosity
  let density_i := model.getDensity row
  let xi := model.getPosition 0 row
  let neighborIndex := model.getNeighbor pid row j
  let xj := model.getPosition pid neighborIndex
  let gradW := model.gradW (xi - xj)
  let xixj := xi - xj
  (10 * mub * (model.getBoundaryPsi pid neighborIndex / density_i)
      / (squaredNorm xixj + 1 / 100 * h2)) • outer gradW xixj

/-- The function `Viscosity_Weiler2018::diagonalMatrixElement` compiled with
`USE_BLOCKDIAGONAL_PRECONDITIONER` (lines 113 to 153): the value stored in
`result`. -/
def diagonalMatrixElement_Matrix3r (tm : TimeManager K) (row : Nat)
    (visco : Viscosity_Weiler2018 K) : Matrix3r K :=
  let model := visco.m_model
  let dt := tm.getTimeStepSize
  let density_i := model.getDensity row
  let result : Matrix3r K := 0
  let result := forLoop (model.numberOfNeighbors 0 row)
    (fun j result => result + diagonalMatrixElement_fluidTerm visco row j) result
  let result := forLoopFrom1 model.numberOfPointSets
    (fun pid result => forLoop (model.numberOfNeighbors pid row)
      (fun j result => result + diagonalMatrixElement_boundaryTerm visco row pid j) result)
    result
  (1 : Matrix3r K) - (dt / density_i) • result

/-- The function `Viscosity_Weiler2018::diagonalMatrixElement` compiled without
`USE_BLOCKDIAGONAL_PRECONDITIONER` (lines 157 to 199): the value stored in
`result`. -/
def diagonalMatrixElement_Vector3r (tm : TimeManager K) (row : Nat)
    (visco : Viscosity_Weiler2018 K) : Vector3r K :=
  let model := visco.m_model
  let dt := tm.getTimeStepSize
  let density_i := model.getDensity row
  let result : Vector3r K := 0
  let result := forLoop (model.numberOfNeighbors 0 row)
    (fun j result =>
      let r := diagonalMatrixElement_fluidTerm visco row j
      result + Matrix.diag r) result
  let result := forLoopFrom1 model.numberOfPointSets
    (fun pid result => forLoop (model.numberOfNeighbors pid row)
      (fun j result =>
        let r := diagonalMatrixElement_boundaryTerm visco row pid j
        result + Matrix.diag r) result)
    result
  (fun _ => (1 : K)) - (dt / density_i) • result

end Viscosity_Weiler2018

/-- The diagonal callback handed to the preconditioner: a block per row when
`USE_BLOCKDIAGONAL_PRECONDITIONER` is defined, a vector per row otherwise. -/
inductive DiagonalCallback (K : Type) where
  | blockDiagonal (f : Nat → Matrix3r K)
  | diagonal (f : Nat → Vector3r K)

/-- One invocation `m_solver.solveWithGuess(b, g)` together with the
configuration of `m_solver` in force when it is made. -/
structure SolverCall (K : Type) where
  A_size : Nat
  A_matrixVecProd : (Nat → K) → (Nat → K) → (Nat → K)
  preconditioner_dim : Nat
  preconditioner_diagonalMatrixElement : DiagonalCallback K
  tolerance : K
  maxIterations : Nat
  b : List K
  g : List K

/-- What the solver hands back: the coefficients `x[k]` of the returned vector
and the value of `m_solver.iterations()`. -/
structure SolverResult (K : Type) where
  x : Nat → K
  iterations : Nat

/-- The loop `for (i = 0; i < n; i++)` over a body that may fail. -/
def forLoopM {σ : Type} (n : Nat) (body : Nat → σ → Option σ) (init : σ) : Option σ :=
  (List.range n).foldlM (fun acc j => body j acc) init

namespace Viscosity_Weiler2018

/-- The constructor `Viscosity_Weiler2018::Viscosity_Weiler2018` (lines 14 to
22).  The body assigns `m_maxIter`, `m_maxError` and `m_iterations` and resizes
the empty `m_vDiff`; `m_viscosity` is whatever the base class constructor left
and `m_boundaryViscosity` whatever the member holds when the body starts, as
the body assigns neither. -/
def ctor (model : FluidModel K) (viscosity boundaryViscosity : K) :
    SPH.Viscosity_Weiler2018 K :=
  { m_model := model
    m_viscosity := viscosity
    m_boundaryViscosity := boundaryViscosity
    m_maxIter := 100
    m_maxError := 1 / 100
    m_iterations := 0
    m_vDiff := List.replicate model.numParticles 0 }

/-- The body of the right-hand side loop of `step` (lines 235 to 243) acting on
the pair `(b, g)`; the read `m_vDiff[i]` fails out of range. -/
def step_rhsBody (visco : SPH.Viscosity_Weiler2018 K) (i : Nat)
    (bg : List K × List K) : Option (List K × List K) :=
  match visco.m_vDiff[i]? with
  | none => none
  | some d =>
    let vi := visco.m_model.getVelocity 0 i
    let b := bg.1
    let g := bg.2
    let b := b.set (3 * i) (vi 0)
    let b := b.set (3 * i + 1) (vi 1)
    let b := b.set (3 * i + 2) (vi 2)
    let g := g.set (3 * i) (vi 0 + d 0)
    let g := g.set (3 * i + 1) (vi 1 + d 1)
    let g := g.set (3 * i + 2) (vi 2 + d 2)
    some (b, g)

/-- The body of the last loop of `step` (lines 261 to 264); the store
`m_vDiff[i] = ...` fails out of range. -/
def step_applyBody (tm : TimeManager K) (x : Nat → K) (i : Nat)
    (visco : SPH.Viscosity_Weiler2018 K) : Option (SPH.Viscosity_Weiler2018 K) :=
  let h := tm.getTimeStepSize
  let newV : Vector3r K := ![x (3 * i), x (3 * i + 1), x (3 * i + 2)]
  let ai := visco.m_model.getAcceleration i + (1 / h) • (newV - visco.m_model.getVelocity 0 i)
  let model := { visco.m_model with
    getAcceleration := Function.update visco.m_model.getAcceleration i ai }
  if i < visco.m_vDiff.length then
    some { visco with
      m_model := model
      m_vDiff := visco.m_vDiff.set i (newV - model.getVelocity 0 i) }
  else none

/-- The function `Viscosity_Weiler2018::step` (lines 204 to 267).  `solver` is
the conjugate gradient collaborator `m_solver`, `useBlockDiagonal` tells
whether `USE_BLOCKDIAGONAL_PRECONDITIONER` is defined.  The result is the
object after the call together with the list of solver invocations made, or
`none` when an access to `m_vDiff` is out of range.  The vectors `b` and `g`
are created with `3 * numParticles` coefficients, each of which the first loop
overwrites. -/
def step (tm : TimeManager K) (solver : SolverCall K → SolverResult K)
    (useBlockDiagonal : Bool) (visco : SPH.Viscosity_Weiler2018 K) :
    Option (SPH.Viscosity_Weiler2018 K × List (SolverCall K)) :=
  let numParticles := visco.m_model.numActiveParticles
  if numParticles = 0 then some (visco, [])
  else
    let b : List K := List.replicate (3 * numParticles) 0
    let g : List K := List.replicate (3 * numParticles) 0
    match forLoopM numParticles (step_rhsBody visco) (b, g) with
    | none => none
    | some (b, g) =>
      let call : SolverCall K :=
        { A_size := 3 * visco.m_model.numActiveParticles
          A_matrixVecProd := fun vec result => matrixVecProd tm vec result visco
          preconditioner_dim := visco.m_model.numActiveParticles
          preconditioner_diagonalMatrixElement :=
            if useBlockDiagonal then
              DiagonalCallback.blockDiagonal (fun row => diagonalMatrixElement_Matrix3r tm row visco)
            else
              DiagonalCallback.diagonal (fun row => diagonalMatrixElement_Vector3r tm row visco)
          tolerance := visco.m_maxError
          maxIterations := visco.m_maxIter
          b := b
          g := g }
      let r := solver call
      let visco := { visco with m_iterations := r.iterations }
      match forLoopM numParticles (step_applyBody tm r.x) visco with
      | none => none
      | some visco => some (visco, [call])

/-- The function `Viscosity_Weiler2018::reset` (lines 270 to 272). -/
def reset (visco : SPH.Viscosity_Weiler2018 K) : SPH.Viscosity_Weiler2018 K :=
  visco

/-- The function `Viscosity_Weiler2018::performNeighborhoodSearchSort`
(lines 274 to 276). -/
def performNeighborhoodSearchSort (visco : SPH.Viscosity_Weiler2018 K) :
    SPH.Viscosity_Weiler2018 K :=
  visco

end Viscosity_Weiler2018

/-! ## Closed forms and the operator as the specification words it -/

namespace Viscosity_Weiler2018

/-- The fluid part of the accumulator `ai` as a sum over the neighbour slots. -/
def fluidSum (visco : SPH.Viscosity_Weiler2018 K) (vec : Nat → K) (i : Nat) : Vector3r K :=
  ∑ j in Finset.range (visco.m_model.numberOfNeighbors 0 i),
    matrixVecProd_fluidTerm visco vec i j

/-- The boundary part of the accumulator `ai` as a sum over the point sets from
one and their neighbour slots. -/
def boundarySum (visco : SPH.Viscosity_Weiler2018 K) (vec : Nat → K) (i : Nat) : Vector3r K :=
  ∑ pid in Finset.Ico 1 visco.m_model.numberOfPointSets,
    ∑ j in Finset.range (visco.m_model.numberOfNeighbors pid i),
      matrixVecProd_boundaryTerm visco vec i pid j

/-- The fluid part of the accumulated block of `diagonalMatrixElement` as a sum
over the neighbour slots. -/
def blockFluidSum (visco : SPH.Viscosity_Weiler2018 K) (row : Nat) : Matrix3r K :=
  ∑ j in Finset.range (visco.m_model.numberOfNeighbors 0 row),
    diagonalMatrixElement_fluidTerm visco row j

/-- The boundary part of the accumulated block of `diagonalMatrixElement` as a
sum over the point sets from one and their neighbour slots. -/
def blockBoundarySum (visco : SPH.Viscosity_Weiler2018 K) (row : Nat) : Matrix3r K :=
  ∑ pid in Finset.Ico 1 visco.m_model.numberOfPointSets,
    ∑ j in Finset.range (visco.m_model.numberOfNeighbors pid row),
      diagonalMatrixElement_boundaryTerm visco row pid j

/-- The quantity `a_i` of the operator in the words of the specification: the
sum over the fluid neighbours `j` of
`10·μ·(m_j/ρ_j)·((v_i − v_j)·(x_i − x_j))/(‖x_i − x_j‖² + 0.01·h²)·∇W(x_i − x_j)`
with `v_j` read from the input vector, plus the sum over every boundary point
set and every neighbour `j` in it of
`10·μ_b·(ψ_j/ρ_i)·((v_i − v_j)·(x_i − x_j))/(‖x_i − x_j‖² + 0.01·h²)·∇W(x_i − x_j)`
with `v_j` read from the velocity field of the boundary point set. -/
def spec_a (visco : SPH.Viscosity_Weiler2018 K) (vec : Nat → K) (i : Nat) : Vector3r K :=
  let M := visco.m_model
  let μ := visco.m_viscosity
  let μb := visco.m_boundaryViscosity
  let h := M.getSupportRadius
  let ρ := M.getDensity
  let x := M.getPosition 0
  let v := mapVector3r vec
  (∑ s in Finset.range (M.numberOfNeighbors 0 i),
      (10 * μ * (M.getMass (M.getNeighbor 0 i s) / ρ (M.getNeighbor 0 i s))
          * dot (v i - v (M.getNeighbor 0 i s)) (x i - x (M.getNeighbor 0 i s))
          / (squaredNorm (x i - x (M.getNeighbor 0 i s)) + 1 / 100 * h ^ 2))
        • M.gradW (x i - x (M.getNeighbor 0 i s)))
  + ∑ pid in Finset.Ico 1 M.numberOfPointSets,
      ∑ s in Finset.range (M.numberOfNeighbors pid i),
        (10 * μb * (M.getBoundaryPsi pid (M.getNeighbor pid i s) / ρ i)
            * dot (v i - M.getVelocity pid (M.getNeighbor pid i s))
                (x i - M.getPosition pid (M.getNeighbor pid i s))
            / (squaredNorm (x i - M.getPosition pid (M.getNeighbor pid i s)) + 1 / 100 * h ^ 2))
          • M.gradW (x i - M.getPosition pid (M.getNeighbor pid i s))

/-- The output of the operator for particle `i` in the words of the
specification: `v_i − (dt/ρ_i)·a_i`. -/
def spec_matrixVecProd (tm : TimeManager K) (visco : SPH.Viscosity_Weiler2018 K)
    (vec : Nat → K) (i : Nat) : Vector3r K :=
  mapVector3r vec i - (tm.getTimeStepSize / visco.m_model.getDensity i) • spec_a visco vec i

/-- The `k`-th diagonal entry of the preconditioner for particle `i` in the
words of the specification: `1 − (dt/ρ_i)·Σ_j c_j·∇W_k·(x_i − x_j)_k`, with
`c_j = 10·μ·(m_j/ρ_j)/(‖x_i − x_j‖² + 0.01·h²)` for a fluid neighbour and
`c_j = 10·μ_b·(ψ_j/ρ_i)/(‖x_i − x_j‖² + 0.01·h²)` for a boundary neighbour. -/
def spec_diagonal (tm : TimeManager K) (visco : SPH.Viscosity_Weiler2018 K) (i : Nat)
    (k : Fin 3) : K :=
  let M := visco.m_model
  let h := M.getSupportRadius
  let x := M.getPosition 0
  1 - (tm.getTimeStepSize / M.getDensity i) *
    ((∑ s in Finset.range (M.numberOfNeighbors 0 i),
        10 * visco.m_viscosity * (M.getMass (M.getNeighbor 0 i s)
            / M.getDensity (M.getNeighbor 0 i s))
          / (squaredNorm (x i - x (M.getNeighbor 0 i s)) + 1 / 100 * h ^ 2)
          * (M.gradW (x i - x (M.getNeighbor 0 i s)) k * (x i - x (M.getNeighbor 0 i s)) k))
    + ∑ pid in Finset.Ico 1 M.numberOfPointSets,
        ∑ s in Finset.range (M.numberOfNeighbors pid i),
          10 * visco.m_boundaryViscosity * (M.getBoundaryPsi pid (M.getNeighbor pid i s)
              / M.getDensity i)
            / (squaredNorm (x i - M.getPosition pid (M.getNeighbor pid i s)) + 1 / 100 * h ^ 2)
            * (M.gradW (x i - M.getPosition pid (M.getNeighbor pid i s)) k
                * (x i - M.getPosition pid (M.getNeighbor pid i s)) k))

/-- The fluid neighbours of particle `i` in the order of the neighbour slots. -/
def neighborList (visco : SPH.Viscosity_Weiler2018 K) (i : Nat) : List Nat :=
  (List.range (visco.m_model.numberOfNeighbors 0 i)).map (visco.m_model.getNeighbor 0 i)

/-- The Euclidean inner product of the first `n` coefficients of two buffers. -/
def innerProduct (n : Nat) (a b : Nat → K) : K :=
  ∑ s in Finset.range n, a s * b s

/-- The contribution of the pair `(i, j)` of fluid particles to the inner
product of `w` with the output of the operator on `u`: `dt/ρ_i` times the
coefficient of the fluid summand for `u` times `w_i · ∇W(x_i − x_j)`. -/
def couplingTerm (tm : TimeManager K) (visco : SPH.Viscosity_Weiler2018 K) (u w : Nat → K)
    (i j : Nat) : K :=
  let M := visco.m_model
  let x := M.getPosition 0 i - M.getPosition 0 j
  tm.getTimeStepSize / M.getDensity i *
    (10 * visco.m_viscosity * (M.getMass j / M.getDensity j)
        * dot (mapVector3r u i - mapVector3r u j) x
        / (squaredNorm x + 1 / 100 * (M.getSupportRadius * M.getSupportRadius))
      * dot (mapVector3r w i) (M.gradW x))

/-- The part of `couplingTerm` that couples `u_i` with `w_j`, for a kernel
gradient `r ↦ k r • r`. -/
def crossTerm (tm : TimeManager K) (visco : SPH.Viscosity_Weiler2018 K)
    (k : Vector3r K → K) (u w : Nat → K) (i j : Nat) : K :=
  let M := visco.m_model
  let x := M.getPosition 0 i - M.getPosition 0 j
  tm.getTimeStepSize / M.getDensity i *
    (10 * visco.m_viscosity * (M.getMass j / M.getDensity j)
        / (squaredNorm x + 1 / 100 * (M.getSupportRadius * M.getSupportRadius)) * k x
      * (dot (mapVector3r w j) x * dot (mapVector3r u i) x))

/-- The input vector `vec` with the vector `e` added at particle `i`. -/
def addAtParticle (vec : Nat → K) (i : Nat) (e : Vector3r K) : Nat → K :=
  fun s => if s / 3 = i then vec s + e ⟨s % 3, Nat.mod_lt s (by decide)⟩ else vec s

end Viscosity_Weiler2018

/-- The three stores `l[3 i] = v[0]`, `l[3 i + 1] = v[1]`, `l[3 i + 2] = v[2]`. -/
def store3 {α : Type} (l : List α) (i : Nat) (v : Fin 3 → α) : List α :=
  ((l.set (3 * i) (v 0)).set (3 * i + 1) (v 1)).set (3 * i + 2) (v 2)

/-! ## Histories of the solver object -/

/-- Something that happens to the solver object after its construction: a call
of one of its three methods, or a change of the state of the fluid model made
by the surrounding simulation (`modelChange` gives the new state). -/
inductive Event (K : Type) where
  | step (tm : TimeManager K) (solver : SolverCall K → SolverResult K) (useBlockDiagonal : Bool)
  | reset
  | performNeighborhoodSearchSort
  | modelChange (model : FluidModel K)

/-- The object after one event, `none` when a call of `step` fails. -/
def Event.apply : Event K → Viscosity_Weiler2018 K → Option (Viscosity_Weiler2018 K)
  | Event.step tm solver useBlockDiagonal, visco =>
    (Viscosity_Weiler2018.step tm solver useBlockDiagonal visco).map Prod.fst
  | Event.reset, visco => some (Viscosity_Weiler2018.reset visco)
  | Event.performNeighborhoodSearchSort, visco =>
    some (Viscosity_Weiler2018.performNeighborhoodSearchSort visco)
  | Event.modelChange model, visco => some { visco with m_model := model }

/-- The object after a sequence of events. -/
def run (events : List (Event K)) (visco : Viscosity_Weiler2018 K) :
    Option (Viscosity_Weiler2018 K) :=
  events.foldlM (fun v e => e.apply v) visco

/-! ## Concrete configurations over the rationals -/

namespace Example

/-- Two fluid particles on the first axis, each the only fluid neighbour of the
other, and a boundary point set with one moving particle that is a neighbour of
both; the kernel gradient is `r ↦ -r`. -/
def model : FluidModel ℚ :=
  { numParticles := 2
    numActiveParticles := 2
    getSupportRadius := 1
    density0 := 1
    numberOfPointSets := 2
    numberOfNeighbors := fun _ _ => 1
    getNeighbor := fun pid i _ => if pid = 0 then 1 - i else 0
    getPosition := fun pid i => if pid = 0 then ![(i : ℚ), 0, 0] else ![0, 1, 0]
    getVelocity := fun pid i => if pid = 0 then ![1, (i : ℚ), 0] else ![0, 2, 0]
    getDensity := fun _ => 2
    getMass := fun _ => 1
    getBoundaryPsi := fun _ _ => 1
    gradW := fun r => -r
    getAcceleration := fun _ => ![0, 0, 1] }

/-- Time step size one. -/
def tm : TimeManager ℚ := { getTimeStepSize := 1 }

/-- The solver object right after construction over `model`, with both
viscosity coefficients set to one. -/
def visco : Viscosity_Weiler2018 ℚ := Viscosity_Weiler2018.ctor model 1 1

/-- A stand-in for the conjugate gradient solver: it returns the warm start
with one added to every coefficient and reports seven iterations. -/
def solver : SolverCall ℚ → SolverResult ℚ :=
  fun call => { x := fun s => call.g.getD s 0 + 1, iterations := 7 }

/-- The solver object over `model` with fluid viscosity one and boundary
viscosity zero. -/
def viscoNoBoundaryViscosity : Viscosity_Weiler2018 ℚ := Viscosity_Weiler2018.ctor model 1 0

/-- The solver object over `model` with all neighbour lists emptied. -/
def viscoIsolated : Viscosity_Weiler2018 ℚ :=
  Viscosity_Weiler2018.ctor { model with numberOfNeighbors := fun _ _ => 0 } 1 1

/-- The solver object over `model` with the boundary neighbour lists emptied:
the two fluid particles are each the only neighbour of the other. -/
def viscoPair : Viscosity_Weiler2018 ℚ :=
  Viscosity_Weiler2018.ctor
    { model with numberOfNeighbors := fun pid _ => if pid = 0 then 1 else 0 } 1 1

/-- The object `visco` after the active particle count of its model has dropped
to zero. -/
def deactivate (v : Viscosity_Weiler2018 ℚ) : Viscosity_Weiler2018 ℚ :=
  { v with m_model := { v.m_model with numActiveParticles := 0 } }

/-- The all-zero buffer. -/
def zeroVec : Nat → ℚ := fun _ => 0

/-- An input vector with coefficients `1, 2, 3, ...`. -/
def vec : Nat → ℚ := fun s => (s : ℚ) + 1

/-- A history of the object `visco`: a step, a reset, a drop of the active
particle count to one, a neighbourhood sort and another step. -/
def events : List (Event ℚ) :=
  [Event.step tm solver true, Event.reset,
    Event.modelChange { model with numActiveParticles := 1 },
    Event.performNeighborhoodSearchSort, Event.step tm solver false]

/-- The model after a third particle has been added and activated. -/
def grownModel : FluidModel ℚ :=
  { model with numParticles := 3, numActiveParticles := 3 }

/-- Other velocities for the fluid particles, the boundary velocities of
`model`. -/
def otherVelocity : Nat → Nat → Vector3r ℚ :=
  fun pid i => if pid = 0 then ![5, 6, (i : ℚ)] else model.getVelocity pid i

/-- The object `visco` after the active particle count of its model has dropped
to one, with a cache left by an earlier step. -/
def viscoOneActive : Viscosity_Weiler2018 ℚ :=
  { visco with
    m_model := { model with numActiveParticles := 1 }
    m_vDiff := [![1, 1, 1], ![2, 2, 2]] }

end Example

/-! ## Loops -/

section Loops

variable {σ : Type}

theorem forLoop_zero (body : Nat → σ → σ) (init : σ) : forLoop 0 body init = init := rfl

theorem forLoop_succ (n : Nat) (body : Nat → σ → σ) (init : σ) :
    forLoop (n + 1) body init = body n (forLoop n body init) := by
  simp [forLoop, List.range_succ, List.foldl_append]

theorem forLoopFrom1_eq (n : Nat) (body : Nat → σ → σ) (init : σ) :
    forLoopFrom1 n body init = forLoop (n - 1) (fun p acc => body (p + 1) acc) init := rfl

/-- An accumulation loop computes the sum of its summands. -/
theorem forLoop_add {M : Type} [AddCommMonoid M] (n : Nat) (f : Nat → M) (init : M) :
    forLoop n (fun j acc => acc + f j) init = init + ∑ j in Finset.range n, f j := by
  induction n with
  | zero => simp [forLoop_zero]
  | succ n ih => rw [forLoop_succ, ih, Finset.sum_range_succ, add_assoc]

/-- An accumulation loop from one computes the sum over the indices from one. -/
theorem forLoopFrom1_add {M : Type} [AddCommMonoid M] (n : Nat) (f : Nat → M) (init : M) :
    forLoopFrom1 n (fun p acc => acc + f p) init = init + ∑ p in Finset.Ico 1 n, f p := by
  rw [forLoopFrom1_eq, forLoop_add, Finset.sum_Ico_eq_sum_range]
  simp [add_comm]

theorem forLoopM_zero (body : Nat → σ → Option σ) (init : σ) :
    forLoopM 0 body init = some init := rfl

theorem forLoopM_succ (n : Nat) (body : Nat → σ → Option σ) (init : σ) :
    forLoopM (n + 1) body init = (forLoopM n body init).bind (body n) := by
  simp only [forLoopM, List.range_succ, List.foldlM_append]
  cases h : List.foldlM (fun acc j => body j acc) init (List.range n) with
  | none => rfl
  | some a => simp [List.foldlM]

end Loops

/-! ## The operator `matrixVecProd` -/

namespace Viscosity_Weiler2018

theorem matrixVecProd_ai_eq (visco : SPH.Viscosity_Weiler2018 K) (vec : Nat → K) (i : Nat) :
    matrixVecProd_ai visco vec i = fluidSum visco vec i + boundarySum visco vec i := by
  simp only [matrixVecProd_ai, forLoop_add, forLoopFrom1_add, zero_add, fluidSum, boundarySum]

/-- The three stores of one iteration hold the new values at the slots of
particle `i`. -/
theorem matrixVecProd_body_slot (tm : TimeManager K) (visco : SPH.Viscosity_Weiler2018 K)
    (vec result : Nat → K) (i : Nat) (k : Fin 3) :
    matrixVecProd_body tm visco vec i result (3 * i + k.val) =
      vec (3 * i + k.val) - tm.getTimeStepSize / visco.m_model.getDensity i
          * matrixVecProd_ai visco vec i k := by
  fin_cases k <;> simp [matrixVecProd_body, Function.update_apply]

/-- The three stores of one iteration leave every other slot alone. -/
theorem matrixVecProd_body_other (tm : TimeManager K) (visco : SPH.Viscosity_Weiler2018 K)
    (vec result : Nat → K) (i s : Nat) (hs : s < 3 * i ∨ 3 * i + 3 ≤ s) :
    matrixVecProd_body tm visco vec i result s = result s := by
  have h0 : s ≠ 3 * i := by omega
  have h1 : s ≠ 3 * i + 1 := by omega
  have h2 : s ≠ 3 * i + 2 := by omega
  simp [matrixVecProd_body, Function.update_apply, h0, h1, h2]

/-- After `n` iterations of the particle loop the slots of every particle
`i < n` hold `vec[3 i + k] - dt / density_i * ai[k]`. -/
theorem matrixVecProd_loop_slot (tm : TimeManager K) (visco : SPH.Viscosity_Weiler2018 K)
    (vec result : Nat → K) (n i : Nat) (hi : i < n) (k : Fin 3) :
    forLoop n (matrixVecProd_body tm visco vec) result (3 * i + k.val) =
      vec (3 * i + k.val) - tm.getTimeStepSize / visco.m_model.getDensity i
          * matrixVecProd_ai visco vec i k := by
  induction n with
  | zero => omega
  | succ n ih =>
    rw [forLoop_succ]
    by_cases h : i = n
    · subst h
      exact matrixVecProd_body_slot tm visco vec _ i k
    · have hk := k.isLt
      rw [matrixVecProd_body_other tm visco vec _ n _ (by omega)]
      exact ih (by omega)

/-- The particle loop leaves the slots from `3 n` on alone. -/
theorem matrixVecProd_loop_frame (tm : TimeManager K) (visco : SPH.Viscosity_Weiler2018 K)
    (vec result : Nat → K) (n s : Nat) (hs : 3 * n ≤ s) :
    forLoop n (matrixVecProd_body tm visco vec) result s = result s := by
  induction n with
  | zero => rfl
  | succ n ih =>
    rw [forLoop_succ, matrixVecProd_body_other tm visco vec _ n _ (by omega)]
    exact ih (by omega)

/-- The slice of the output of `matrixVecProd` at an active particle. -/
theorem matrixVecProd_slot (tm : TimeManager K) (visco : SPH.Viscosity_Weiler2018 K)
    (vec result : Nat → K) (i : Nat) (hi : i < visco.m_model.numActiveParticles) :
    mapVector3r (matrixVecProd tm vec result visco) i =
      mapVector3r vec i - (tm.getTimeStepSize / visco.m_model.getDensity i)
          • (fluidSum visco vec i + boundarySum visco vec i) := by
  funext k
  simp only [mapVector3r, matrixVecProd, Pi.sub_apply, Pi.smul_apply, smul_eq_mul]
  rw [matrixVecProd_loop_slot tm visco vec result _ i hi k, matrixVecProd_ai_eq]

theorem spec_a_eq (visco : SPH.Viscosity_Weiler2018 K) (vec : Nat → K) (i : Nat) :
    spec_a visco vec i = fluidSum visco vec i + boundarySum visco vec i := by
  simp only [spec_a, fluidSum, boundarySum, matrixVecProd_fluidTerm,
    matrixVecProd_boundaryTerm, pow_two]

/-- C1. For every model state, every input vector and every active particle
`i`, `matrixVecProd` writes to slot `i` the value `v_i − (dt/ρ_i)·a_i`, with
`a_i` the neighbour sum the specification words (fluid neighbours weighted by
`10·μ·m_j/ρ_j` with `v_j` read from the input vector, boundary neighbours of
every point set from one weighted by `10·μ_b·ψ_j/ρ_i` with `v_j` read from the
boundary velocity field). -/
theorem matrixVecProd_eq_spec (tm : TimeManager K) (visco : SPH.Viscosity_Weiler2018 K)
    (vec result : Nat → K) (i : Nat) (hi : i < visco.m_model.numActiveParticles) :
    mapVector3r (matrixVecProd tm vec result visco) i = spec_matrixVecProd tm visco vec i := by
  rw [matrixVecProd_slot tm visco vec result i hi, spec_matrixVecProd, spec_a_eq]

theorem matrixVecProd_eq_spec_witness :
    1 < Example.visco.m_model.numActiveParticles ∧
    mapVector3r (matrixVecProd Example.tm Example.vec Example.zeroVec Example.visco) 1 =
      spec_matrixVecProd Example.tm Example.visco Example.vec 1 :=
  ⟨by decide, matrixVecProd_eq_spec Example.tm Example.visco Example.vec Example.zeroVec 1
    (by decide)⟩

/-! ## The preconditioner blocks -/

theorem diagonalMatrixElement_Matrix3r_eq (tm : TimeManager K) (row : Nat)
    (visco : SPH.Viscosity_Weiler2018 K) :
    diagonalMatrixElement_Matrix3r tm row visco =
      1 - (tm.getTimeStepSize / visco.m_model.getDensity row)
          • (blockFluidSum visco row + blockBoundarySum visco row) := by
  simp only [diagonalMatrixElement_Matrix3r, forLoop_add, forLoopFrom1_add, zero_add,
    blockFluidSum, blockBoundarySum]

theorem diagonalMatrixElement_Vector3r_eq (tm : TimeManager K) (row : Nat)
    (visco : SPH.Viscosity_Weiler2018 K) :
    diagonalMatrixElement_Vector3r tm row visco =
      (fun _ => (1 : K)) - (tm.getTimeStepSize / visco.m_model.getDensity row)
          • Matrix.diag (blockFluidSum visco row + blockBoundarySum visco row) := by
  simp only [diagonalMatrixElement_Vector3r, forLoop_add, forLoopFrom1_add, zero_add,
    blockFluidSum, blockBoundarySum, Matrix.diag_add, Matrix.diag_sum]

theorem mapVector3r_addAtParticle (vec : Nat → K) (i n : Nat) (e : Vector3r K) :
    mapVector3r (addAtParticle vec i e) n =
      if n = i then mapVector3r vec n + e else mapVector3r vec n := by
  funext k
  have hk := k.isLt
  have hd : (3 * n + k.val) / 3 = n := by omega
  have hm : (3 * n + k.val) % 3 = k.val := by omega
  by_cases h : n = i
  · subst h
    simp only [mapVector3r, addAtParticle, hd, if_true, Pi.add_apply]
    have he : (⟨(3 * n + k.val) % 3, Nat.mod_lt _ (by decide)⟩ : Fin 3) = k := Fin.ext hm
    rw [he]
  · simp [mapVector3r, addAtParticle, hd, h]

theorem dot_add_left (a b c : Vector3r K) : dot (a + b) c = dot a c + dot b c := by
  simp only [dot, Pi.add_apply]; ring

theorem mulVec_outer (a b e : Vector3r K) (c : K) :
    Matrix.mulVec (c • outer a b) e = (c * dot e b) • a := by
  funext r
  simp only [Matrix.mulVec, Matrix.dotProduct, Fin.sum_univ_three, Matrix.smul_apply, outer,
    smul_eq_mul, Pi.smul_apply, dot]
  ring

/-- Adding `e` at particle `i` changes a fluid summand of particle `i` by the
fluid summand of the block applied to `e`. -/
theorem fluidTerm_addAtParticle (visco : SPH.Viscosity_Weiler2018 K) (vec : Nat → K)
    (i j : Nat) (e : Vector3r K) :
    matrixVecProd_fluidTerm visco (addAtParticle vec i e) i j =
      matrixVecProd_fluidTerm visco vec i j
        + Matrix.mulVec (diagonalMatrixElement_fluidTerm visco i j) e := by
  simp only [matrixVecProd_fluidTerm, diagonalMatrixElement_fluidTerm, mulVec_outer,
    mapVector3r_addAtParticle, if_true]
  by_cases h : visco.m_model.getNeighbor 0 i j = i
  · simp [h, dot, squaredNorm]
  · rw [if_neg h, ← add_smul]
    congr 1
    have : mapVector3r vec i + e - mapVector3r vec (visco.m_model.getNeighbor 0 i j)
        = (mapVector3r vec i - mapVector3r vec (visco.m_model.getNeighbor 0 i j)) + e := by
      abel
    rw [this, dot_add_left]
    ring

/-- Adding `e` at particle `i` changes a boundary summand of particle `i` by
the boundary summand of the block applied to `e`. -/
theorem boundaryTerm_addAtParticle (visco : SPH.Viscosity_Weiler2018 K) (vec : Nat → K)
    (i pid j : Nat) (e : Vector3r K) :
    matrixVecProd_boundaryTerm visco (addAtParticle vec i e) i pid j =
      matrixVecProd_boundaryTerm visco vec i pid j
        + Matrix.mulVec (diagonalMatrixElement_boundaryTerm visco i pid j) e := by
  simp only [matrixVecProd_boundaryTerm, diagonalMatrixElement_boundaryTerm, mulVec_outer,
    mapVector3r_addAtParticle, if_true]
  rw [← add_smul]
  congr 1
  have : mapVector3r vec i + e
        - visco.m_model.getVelocity pid (visco.m_model.getNeighbor pid i j)
      = (mapVector3r vec i
          - visco.m_model.getVelocity pid (visco.m_model.getNeighbor pid i j)) + e := by
    abel
  rw [this, dot_add_left]
  ring

theorem mulVec_sum {ι : Type} (s : Finset ι) (f : ι → Matrix3r K) (e : Vector3r K) :
    Matrix.mulVec (∑ x in s, f x) e = ∑ x in s, Matrix.mulVec (f x) e :=
  map_sum (Matrix.mulVec.addMonoidHomLeft e) f s

theorem fluidSum_addAtParticle (visco : SPH.Viscosity_Weiler2018 K) (vec : Nat → K)
    (i : Nat) (e : Vector3r K) :
    fluidSum visco (addAtParticle vec i e) i =
      fluidSum visco vec i + Matrix.mulVec (blockFluidSum visco i) e := by
  simp only [fluidSum, blockFluidSum, fluidTerm_addAtParticle, Finset.sum_add_distrib,
    mulVec_sum]

theorem boundarySum_addAtParticle (visco : SPH.Viscosity_Weiler2018 K) (vec : Nat → K)
    (i : Nat) (e : Vector3r K) :
    boundarySum visco (addAtParticle vec i e) i =
      boundarySum visco vec i + Matrix.mulVec (blockBoundarySum visco i) e := by
  simp only [boundarySum, blockBoundarySum, boundaryTerm_addAtParticle, Finset.sum_add_distrib,
    mulVec_sum]

/-- C2. The block returned by the full-block `diagonalMatrixElement` for an
active particle `i` is the diagonal block of the map `matrixVecProd` applies:
the slot-`i` output on `v` with `e` added at particle `i`, minus the slot-`i`
output on `v`, is the block applied to `e`. -/
theorem diagonalMatrixElement_is_diagonal_block (tm : TimeManager K)
    (visco : SPH.Viscosity_Weiler2018 K) (v result result2 : Nat → K) (i : Nat)
    (hi : i < visco.m_model.numActiveParticles) (e : Vector3r K) :
    mapVector3r (matrixVecProd tm (addAtParticle v i e) result2 visco) i
        - mapVector3r (matrixVecProd tm v result visco) i
      = Matrix.mulVec (diagonalMatrixElement_Matrix3r tm i visco) e := by
  rw [matrixVecProd_slot tm visco _ result2 i hi, matrixVecProd_slot tm visco v result i hi,
    diagonalMatrixElement_Matrix3r_eq, fluidSum_addAtParticle, boundarySum_addAtParticle,
    mapVector3r_addAtParticle, if_pos rfl, Matrix.sub_mulVec, Matrix.one_mulVec,
    Matrix.smul_mulVec_assoc, Matrix.add_mulVec]
  simp only [smul_add]
  abel

theorem diagonalMatrixElement_is_diagonal_block_witness :
    0 < Example.visco.m_model.numActiveParticles ∧
    mapVector3r (matrixVecProd Example.tm (addAtParticle Example.vec 0 ![1, 2, 3])
          Example.zeroVec Example.visco) 0
        - mapVector3r (matrixVecProd Example.tm Example.vec Example.zeroVec Example.visco) 0
      = Matrix.mulVec (diagonalMatrixElement_Matrix3r Example.tm 0 Example.visco) ![1, 2, 3] :=
  ⟨by decide, diagonalMatrixElement_is_diagonal_block Example.tm Example.visco Example.vec
    Example.zeroVec Example.zeroVec 0 (by decide) ![1, 2, 3]⟩

end Viscosity_Weiler2018

/-! ## The loops of `step` -/

theorem length_store3 {α : Type} (l : List α) (i : Nat) (v : Fin 3 → α) :
    (store3 l i v).length = l.length := by
  simp [store3]

theorem getElem?_store3_slot {α : Type} (l : List α) (i : Nat) (v : Fin 3 → α) (k : Fin 3)
    (hl : 3 * i + 3 ≤ l.length) : (store3 l i v)[3 * i + k.val]? = some (v k) := by
  have h0 : 3 * i < l.length := by omega
  have h1 : 3 * i + 1 < l.length := by omega
  have h2 : 3 * i + 2 < l.length := by omega
  fin_cases k <;> simp [store3, List.getElem?_set, h0, h1, h2]

theorem getElem?_store3_other {α : Type} (l : List α) (i s : Nat) (v : Fin 3 → α)
    (hs : s < 3 * i ∨ 3 * i + 3 ≤ s) : (store3 l i v)[s]? = l[s]? := by
  have h0 : 3 * i ≠ s := by omega
  have h1 : 3 * i + 1 ≠ s := by omega
  have h2 : 3 * i + 2 ≠ s := by omega
  simp [store3, List.getElem?_set, h0, h1, h2]

namespace Viscosity_Weiler2018

theorem step_rhsBody_eq (visco : SPH.Viscosity_Weiler2018 K) (i : Nat)
    (hi : i < visco.m_vDiff.length) (b g : List K) :
    step_rhsBody visco i (b, g) =
      some (store3 b i (visco.m_model.getVelocity 0 i),
        store3 g i (visco.m_model.getVelocity 0 i + visco.m_vDiff.getD i 0)) := by
  simp [step_rhsBody, store3, List.getElem?_eq_getElem hi]

/-- The right-hand side loop succeeds when its reads of `m_vDiff` are in range,
keeps the sizes of `b` and `g`, and fills the slots of the particles below `n`. -/
theorem step_rhsLoop (visco : SPH.Viscosity_Weiler2018 K) (n : Nat)
    (hn : n ≤ visco.m_vDiff.length) (b0 g0 : List K)
    (hb : 3 * n ≤ b0.length) (hg : 3 * n ≤ g0.length) :
    ∃ b g, forLoopM n (step_rhsBody visco) (b0, g0) = some (b, g) ∧
      b.length = b0.length ∧ g.length = g0.length ∧
      ∀ i, i < n → ∀ k : Fin 3,
        b[3 * i + k.val]? = some (visco.m_model.getVelocity 0 i k) ∧
        g[3 * i + k.val]? =
          some (visco.m_model.getVelocity 0 i k + (visco.m_vDiff.getD i 0) k) := by
  induction n with
  | zero => exact ⟨b0, g0, rfl, rfl, rfl, fun i hi => absurd hi (Nat.not_lt_zero i)⟩
  | succ n ih =>
    obtain ⟨b, g, hloop, hbl, hgl, hslots⟩ := ih (by omega) (by omega) (by omega)
    refine ⟨store3 b n (visco.m_model.getVelocity 0 n),
      store3 g n (visco.m_model.getVelocity 0 n + visco.m_vDiff.getD n 0), ?_, ?_, ?_, ?_⟩
    · rw [forLoopM_succ, hloop, Option.some_bind, step_rhsBody_eq visco n (by omega)]
    · rw [length_store3, hbl]
    · rw [length_store3, hgl]
    · intro i hi k
      have hk := k.isLt
      by_cases h : i = n
      · subst h
        rw [getElem?_store3_slot b i _ k (by omega), getElem?_store3_slot g i _ k (by omega)]
        exact ⟨rfl, rfl⟩
      · rw [getElem?_store3_other b n _ _ (by omega), getElem?_store3_other g n _ _ (by omega)]
        exact hslots i (by omega) k

/-- The last loop of `step` succeeds when its stores into `m_vDiff` are in
range; it changes only the accelerations and the cache entries of the particles
below `n`. -/
theorem step_applyLoop (tm : TimeManager K) (x : Nat → K) (visco : SPH.Viscosity_Weiler2018 K)
    (n : Nat) (hn : n ≤ visco.m_vDiff.length) :
    ∃ (acc : Nat → Vector3r K) (vd : List (Vector3r K)),
      forLoopM n (step_applyBody tm x) visco =
        some { visco with
          m_model := { visco.m_model with getAcceleration := acc }
          m_vDiff := vd } ∧
      vd.length = visco.m_vDiff.length ∧
      (∀ i, acc i = if i < n then
          visco.m_model.getAcceleration i + (1 / tm.getTimeStepSize)
            • (![x (3 * i), x (3 * i + 1), x (3 * i + 2)] - visco.m_model.getVelocity 0 i)
        else visco.m_model.getAcceleration i) ∧
      (∀ i, vd[i]? = if i < n then
          some (![x (3 * i), x (3 * i + 1), x (3 * i + 2)] - visco.m_model.getVelocity 0 i)
        else visco.m_vDiff[i]?) := by
  induction n with
  | zero =>
    exact ⟨visco.m_model.getAcceleration, visco.m_vDiff, rfl, rfl, fun i => by simp,
      fun i => by simp⟩
  | succ n ih =>
    obtain ⟨acc, vd, hloop, hlen, hacc, hvd⟩ := ih (by omega)
    refine ⟨Function.update acc n (acc n + (1 / tm.getTimeStepSize)
        • (![x (3 * n), x (3 * n + 1), x (3 * n + 2)] - visco.m_model.getVelocity 0 n)),
      vd.set n (![x (3 * n), x (3 * n + 1), x (3 * n + 2)] - visco.m_model.getVelocity 0 n),
      ?_, ?_, ?_, ?_⟩
    · have hlt : n < vd.length := by omega
      rw [forLoopM_succ, hloop, Option.some_bind]
      simp only [step_applyBody, hlt, if_true]
    · rw [List.length_set, hlen]
    · intro i
      by_cases h : i = n
      · subst h
        simp [hacc i]
      · by_cases h2 : i < n
        · rw [Function.update_noteq h, hacc i, if_pos h2, if_pos (by omega)]
        · rw [Function.update_noteq h, hacc i, if_neg h2, if_neg (by omega)]
    · intro i
      by_cases h : i = n
      · subst h
        simp [List.getElem?_set, hlen, hn]
        omega
      · have hne : n ≠ i := fun e => h e.symm
        rw [List.getElem?_set_ne hne, hvd i]
        by_cases h2 : i < n
        · rw [if_pos h2, if_pos (by omega)]
        · rw [if_neg h2, if_neg (by omega)]

/-- What `step` does with at least one active particle and a cache that covers
the active particles: it calls the solver once, on the flattened velocities
and the warm start, and then updates accelerations and cache from the
solution. -/
theorem step_spec (tm : TimeManager K) (solver : SolverCall K → SolverResult K)
    (useBlockDiagonal : Bool) (visco : SPH.Viscosity_Weiler2018 K)
    (h0 : visco.m_model.numActiveParticles ≠ 0)
    (hsz : visco.m_model.numActiveParticles ≤ visco.m_vDiff.length) :
    ∃ (call : SolverCall K) (acc : Nat → Vector3r K) (vd : List (Vector3r K)),
      step tm solver useBlockDiagonal visco =
        some ({ visco with
            m_model := { visco.m_model with getAcceleration := acc }
            m_iterations := (solver call).iterations
            m_vDiff := vd }, [call]) ∧
      (call.A_size = 3 * visco.m_model.numActiveParticles ∧
        call.A_matrixVecProd = (fun vec result => matrixVecProd tm vec result visco) ∧
        call.preconditioner_dim = visco.m_model.numActiveParticles ∧
        call.tolerance = visco.m_maxError ∧
        call.maxIterations = visco.m_maxIter) ∧
      (call.b.length = 3 * visco.m_model.numActiveParticles ∧
        call.g.length = 3 * visco.m_model.numActiveParticles ∧
        ∀ i, i < visco.m_model.numActiveParticles → ∀ k : Fin 3,
          call.b[3 * i + k.val]? = some (visco.m_model.getVelocity 0 i k) ∧
          call.g[3 * i + k.val]? =
            some (visco.m_model.getVelocity 0 i k + (visco.m_vDiff.getD i 0) k)) ∧
      vd.length = visco.m_vDiff.length ∧
      (∀ i, acc i = if i < visco.m_model.numActiveParticles then
          visco.m_model.getAcceleration i + (1 / tm.getTimeStepSize)
            • (![(solver call).x (3 * i), (solver call).x (3 * i + 1),
                  (solver call).x (3 * i + 2)] - visco.m_model.getVelocity 0 i)
        else visco.m_model.getAcceleration i) ∧
      (∀ i, vd[i]? = if i < visco.m_model.numActiveParticles then
          some (![(solver call).x (3 * i), (solver call).x (3 * i + 1),
                  (solver call).x (3 * i + 2)] - visco.m_model.getVelocity 0 i)
        else visco.m_vDiff[i]?) := by
  obtain ⟨b, g, hrhs, hbl, hgl, hslots⟩ := step_rhsLoop visco
    visco.m_model.numActiveParticles hsz
    (List.replicate (3 * visco.m_model.numActiveParticles) 0)
    (List.replicate (3 * visco.m_model.numActiveParticles) 0) (by simp) (by simp)
  simp only [List.length_replicate] at hbl hgl
  simp only [step, h0, if_false, hrhs]
  generalize hc : ({
      A_size := 3 * visco.m_model.numActiveParticles
      A_matrixVecProd := fun vec result => matrixVecProd tm vec result visco
      preconditioner_dim := visco.m_model.numActiveParticles
      preconditioner_diagonalMatrixElement :=
        if useBlockDiagonal then
          DiagonalCallback.blockDiagonal (fun row => diagonalMatrixElement_Matrix3r tm row visco)
        else
          DiagonalCallback.diagonal (fun row => diagonalMatrixElement_Vector3r tm row visco)
      tolerance := visco.m_maxError
      maxIterations := visco.m_maxIter
      b := b
      g := g } : SolverCall K) = call
  obtain ⟨acc, vd, happly, hlen, hacc, hvd⟩ := step_applyLoop tm (solver call).x
    { visco with m_iterations := (solver call).iterations }
    visco.m_model.numActiveParticles hsz
  refine ⟨call, acc, vd, ?_, ?_, ?_, hlen, hacc, hvd⟩
  · simp only [happly]
  · subst hc
    exact ⟨rfl, rfl, rfl, rfl, rfl⟩
  · subst hc
    exact ⟨hbl, hgl, hslots⟩

/-- C3. For every `step` with at least one active particle (and a cache that
covers the active particles, so that every access `m_vDiff[i]` is in range) and
every solver result `x`: the step returns, having called the solver once, and
for every active particle `i` with `newV = (x[3i], x[3i+1], x[3i+2])` the
acceleration after the step is the acceleration before plus
`(1/dt)·(newV − velocity_i)`, the cache entry `m_vDiff[i]` after the step is
`newV − velocity_i`, and hence the acceleration added is `1/dt` times the new
cache entry. -/
theorem step_adds_acceleration_and_updates_cache (tm : TimeManager K)
    (solver : SolverCall K → SolverResult K) (useBlockDiagonal : Bool)
    (visco : SPH.Viscosity_Weiler2018 K)
    (hN : 0 < visco.m_model.numActiveParticles)
    (hsz : visco.m_model.numActiveParticles ≤ visco.m_vDiff.length) :
    ∃ (after : SPH.Viscosity_Weiler2018 K) (call : SolverCall K),
      step tm solver useBlockDiagonal visco = some (after, [call]) ∧
      ∀ i, i < visco.m_model.numActiveParticles →
        after.m_model.getAcceleration i =
          visco.m_model.getAcceleration i + (1 / tm.getTimeStepSize)
            • (![(solver call).x (3 * i), (solver call).x (3 * i + 1),
                  (solver call).x (3 * i + 2)] - visco.m_model.getVelocity 0 i) ∧
        after.m_vDiff[i]? =
          some (![(solver call).x (3 * i), (solver call).x (3 * i + 1),
                  (solver call).x (3 * i + 2)] - visco.m_model.getVelocity 0 i) ∧
        after.m_model.getAcceleration i =
          visco.m_model.getAcceleration i
            + (1 / tm.getTimeStepSize) • after.m_vDiff.getD i 0 := by
  obtain ⟨call, acc, vd, hstep, -, -, -, hacc, hvd⟩ :=
    step_spec tm solver useBlockDiagonal visco (by omega) hsz
  refine ⟨_, call, hstep, fun i hi => ?_⟩
  have ha := hacc i
  have hv := hvd i
  rw [if_pos hi] at ha hv
  refine ⟨ha, hv, ?_⟩
  simp only [List.getD_eq_getElem?_getD, hv, Option.getD_some]
  exact ha

theorem step_adds_acceleration_and_updates_cache_witness :
    0 < Example.visco.m_model.numActiveParticles ∧
    Example.visco.m_model.numActiveParticles ≤ Example.visco.m_vDiff.length ∧
    ∃ (after : SPH.Viscosity_Weiler2018 ℚ) (call : SolverCall ℚ),
      step Example.tm Example.solver true Example.visco = some (after, [call]) ∧
      ∀ i, i < Example.visco.m_model.numActiveParticles →
        after.m_model.getAcceleration i =
          Example.visco.m_model.getAcceleration i + (1 / Example.tm.getTimeStepSize)
            • (![(Example.solver call).x (3 * i), (Example.solver call).x (3 * i + 1),
                  (Example.solver call).x (3 * i + 2)]
                - Example.visco.m_model.getVelocity 0 i) ∧
        after.m_vDiff[i]? =
          some (![(Example.solver call).x (3 * i), (Example.solver call).x (3 * i + 1),
                  (Example.solver call).x (3 * i + 2)]
                - Example.visco.m_model.getVelocity 0 i) ∧
        after.m_model.getAcceleration i =
          Example.visco.m_model.getAcceleration i
            + (1 / Example.tm.getTimeStepSize) • after.m_vDiff.getD i 0 :=
  ⟨by decide, by decide,
    step_adds_acceleration_and_updates_cache Example.tm Example.solver true Example.visco
      (by decide) (by decide)⟩

/-- C4. For every `step` with `N ≥ 1` active particles (and a cache that covers
the active particles) the solver is invoked exactly once, with tolerance
`m_maxError`, iteration cap `m_maxIter`, a right-hand side `b` of length `3N`
with `b[3i+k] = velocity_i[k]` and an initial guess `g` of length `3N` with
`g[3i+k] = velocity_i[k] + m_vDiff[i][k]`; when every cache entry is zero,
`g = b`. -/
theorem step_invokes_solver_once (tm : TimeManager K)
    (solver : SolverCall K → SolverResult K) (useBlockDiagonal : Bool)
    (visco : SPH.Viscosity_Weiler2018 K)
    (hN : 1 ≤ visco.m_model.numActiveParticles)
    (hsz : visco.m_model.numActiveParticles ≤ visco.m_vDiff.length) :
    ∃ (after : SPH.Viscosity_Weiler2018 K) (call : SolverCall K),
      step tm solver useBlockDiagonal visco = some (after, [call]) ∧
      call.tolerance = visco.m_maxError ∧
      call.maxIterations = visco.m_maxIter ∧
      call.b.length = 3 * visco.m_model.numActiveParticles ∧
      call.g.length = 3 * visco.m_model.numActiveParticles ∧
      (∀ i, i < visco.m_model.numActiveParticles → ∀ k : Fin 3,
        call.b[3 * i + k.val]? = some (visco.m_model.getVelocity 0 i k) ∧
        call.g[3 * i + k.val]? =
          some (visco.m_model.getVelocity 0 i k + (visco.m_vDiff.getD i 0) k)) ∧
      ((∀ d, d ∈ visco.m_vDiff → d = 0) → call.g = call.b) := by
  obtain ⟨call, acc, vd, hstep, ⟨-, -, -, htol, hmax⟩, ⟨hbl, hgl, hslots⟩, -, -, -⟩ :=
    step_spec tm solver useBlockDiagonal visco (by omega) hsz
  refine ⟨_, call, hstep, htol, hmax, hbl, hgl, hslots, fun hzero => ?_⟩
  apply List.ext_getElem?
  intro s
  by_cases hs : s < 3 * visco.m_model.numActiveParticles
  · have hi : s / 3 < visco.m_model.numActiveParticles := by omega
    have hk : s % 3 < 3 := Nat.mod_lt s (by decide)
    have hsk : 3 * (s / 3) + (⟨s % 3, hk⟩ : Fin 3).val = s := by
      show 3 * (s / 3) + s % 3 = s
      omega
    obtain ⟨hb, hg⟩ := hslots (s / 3) hi ⟨s % 3, hk⟩
    rw [hsk] at hb hg
    have hd : visco.m_vDiff.getD (s / 3) 0 = 0 := by
      have hlt : s / 3 < visco.m_vDiff.length := by omega
      rw [List.getD_eq_getElem?_getD, List.getElem?_eq_getElem hlt, Option.getD_some]
      exact hzero _ (List.getElem_mem hlt)
    rw [hb, hg, hd]
    simp
  · rw [List.getElem?_eq_none (by omega), List.getElem?_eq_none (by omega)]

theorem step_invokes_solver_once_witness :
    1 ≤ Example.visco.m_model.numActiveParticles ∧
    Example.visco.m_model.numActiveParticles ≤ Example.visco.m_vDiff.length ∧
    ∃ (after : SPH.Viscosity_Weiler2018 ℚ) (call : SolverCall ℚ),
      step Example.tm Example.solver false Example.visco = some (after, [call]) ∧
      call.tolerance = Example.visco.m_maxError ∧
      call.maxIterations = Example.visco.m_maxIter ∧
      call.b.length = 3 * Example.visco.m_model.numActiveParticles ∧
      call.g.length = 3 * Example.visco.m_model.numActiveParticles ∧
      (∀ i, i < Example.visco.m_model.numActiveParticles → ∀ k : Fin 3,
        call.b[3 * i + k.val]? = some (Example.visco.m_model.getVelocity 0 i k) ∧
        call.g[3 * i + k.val]? =
          some (Example.visco.m_model.getVelocity 0 i k
            + (Example.visco.m_vDiff.getD i 0) k)) ∧
      ((∀ d, d ∈ Example.visco.m_vDiff → d = 0) → call.g = call.b) :=
  ⟨by decide, by decide,
    step_invokes_solver_once Example.tm Example.solver false Example.visco
      (by decide) (by decide)⟩

/-! ## The operator on the zero vector -/

theorem dot_zero_left (b : Vector3r K) : dot 0 b = 0 := by
  simp [dot]

theorem dot_neg_neg (a b : Vector3r K) : dot (-a) (-b) = dot a b := by
  simp [dot]

theorem squaredNorm_neg (a : Vector3r K) : squaredNorm (-a) = squaredNorm a := by
  simp [squaredNorm, dot]

theorem mapVector3r_zero (i : Nat) : mapVector3r (fun _ => (0 : K)) i = 0 := rfl

/-- On the zero vector every fluid summand vanishes. -/
theorem fluidSum_zero (visco : SPH.Viscosity_Weiler2018 K) (i : Nat) :
    fluidSum visco (fun _ => 0) i = 0 := by
  simp [fluidSum, matrixVecProd_fluidTerm, mapVector3r_zero, dot_zero_left]

theorem boundarySum_zero (visco : SPH.Viscosity_Weiler2018 K) (i : Nat)
    (hb : visco.m_boundaryViscosity = 0 ∨
      ∀ pid, 1 ≤ pid → pid < visco.m_model.numberOfPointSets →
        ∀ j, j < visco.m_model.numberOfNeighbors pid i →
          visco.m_model.getVelocity pid (visco.m_model.getNeighbor pid i j) = 0) :
    boundarySum visco (fun _ => 0) i = 0 := by
  unfold boundarySum
  refine Finset.sum_eq_zero (fun pid hpid => Finset.sum_eq_zero (fun j hj => ?_))
  rcases hb with hb | hb
  · simp [matrixVecProd_boundaryTerm, hb]
  · have hp := Finset.mem_Ico.mp hpid
    have hv := hb pid hp.1 hp.2 j (Finset.mem_range.mp hj)
    simp [matrixVecProd_boundaryTerm, hv, mapVector3r_zero, dot_zero_left]

/-- C5, amended. When the boundary viscosity is zero or every boundary neighbour
of every active particle is at rest, applying `matrixVecProd` to the all-zero
vector yields the all-zero vector. -/
theorem matrixVecProd_zero_input (tm : TimeManager K) (visco : SPH.Viscosity_Weiler2018 K)
    (result : Nat → K)
    (hb : visco.m_boundaryViscosity = 0 ∨
      ∀ i, i < visco.m_model.numActiveParticles →
        ∀ pid, 1 ≤ pid → pid < visco.m_model.numberOfPointSets →
          ∀ j, j < visco.m_model.numberOfNeighbors pid i →
            visco.m_model.getVelocity pid (visco.m_model.getNeighbor pid i j) = 0)
    (s : Nat) (hs : s < 3 * visco.m_model.numActiveParticles) :
    matrixVecProd tm (fun _ => 0) result visco s = 0 := by
  have hi : s / 3 < visco.m_model.numActiveParticles := by omega
  have hk : s % 3 < 3 := Nat.mod_lt s (by decide)
  have hslot := congrFun (matrixVecProd_slot tm visco (fun _ => 0) result (s / 3) hi) ⟨s % 3, hk⟩
  have hsk : 3 * (s / 3) + s % 3 = s := by omega
  have hb2 : boundarySum visco (fun _ => 0) (s / 3) = 0 := by
    apply boundarySum_zero
    rcases hb with hb | hb
    · exact Or.inl hb
    · exact Or.inr (hb (s / 3) hi)
  simp only [mapVector3r, hsk, fluidSum_zero, hb2, add_zero, smul_zero, sub_zero] at hslot
  exact hslot

theorem matrixVecProd_zero_input_witness :
    (Example.viscoNoBoundaryViscosity.m_boundaryViscosity = 0 ∨
      ∀ i, i < Example.viscoNoBoundaryViscosity.m_model.numActiveParticles →
        ∀ pid, 1 ≤ pid → pid < Example.viscoNoBoundaryViscosity.m_model.numberOfPointSets →
          ∀ j, j < Example.viscoNoBoundaryViscosity.m_model.numberOfNeighbors pid i →
            Example.viscoNoBoundaryViscosity.m_model.getVelocity pid
              (Example.viscoNoBoundaryViscosity.m_model.getNeighbor pid i j) = 0) ∧
    4 < 3 * Example.viscoNoBoundaryViscosity.m_model.numActiveParticles ∧
    matrixVecProd Example.tm (fun _ => 0) Example.vec Example.viscoNoBoundaryViscosity 4 = 0 :=
  ⟨Or.inl rfl, by decide,
    matrixVecProd_zero_input Example.tm Example.viscoNoBoundaryViscosity Example.vec
      (Or.inl rfl) 4 (by decide)⟩

/-- C5 as stated fails: with a moving boundary neighbour and boundary viscosity
one, `matrixVecProd` maps the all-zero vector to a vector whose coefficient 1
is `-500/101`. -/
theorem zero_input_not_fixed_point :
    1 < 3 * Example.visco.m_model.numActiveParticles ∧
    matrixVecProd Example.tm Example.zeroVec Example.zeroVec Example.visco 1 = -500 / 101 ∧
    ¬ (∀ s, s < 3 * Example.visco.m_model.numActiveParticles →
        matrixVecProd Example.tm Example.zeroVec Example.zeroVec Example.visco s
          = Example.zeroVec s) := by
  have h : matrixVecProd Example.tm Example.zeroVec Example.zeroVec Example.visco 1
      = -500 / 101 := by
    simp [matrixVecProd, forLoop, List.range_succ, matrixVecProd_body, matrixVecProd_ai,
      forLoopFrom1, matrixVecProd_fluidTerm, matrixVecProd_boundaryTerm, Example.visco,
      Example.model, Example.tm, Example.zeroVec, ctor, Function.update_apply, dot,
      squaredNorm, mapVector3r]
    norm_num
  refine ⟨by decide, h, fun hall => ?_⟩
  have h1 := hall 1 (by decide)
  rw [h] at h1
  simp [Example.zeroVec] at h1


/-! ## Isolated particles and pairs -/

theorem fluidSum_of_no_neighbors (visco : SPH.Viscosity_Weiler2018 K) (vec : Nat → K) (i : Nat)
    (h : visco.m_model.numberOfNeighbors 0 i = 0) : fluidSum visco vec i = 0 := by
  simp [fluidSum, h]

theorem boundarySum_of_no_neighbors (visco : SPH.Viscosity_Weiler2018 K) (vec : Nat → K)
    (i : Nat) (h : ∀ pid, 1 ≤ pid → visco.m_model.numberOfNeighbors pid i = 0) :
    boundarySum visco vec i = 0 := by
  unfold boundarySum
  refine Finset.sum_eq_zero (fun pid hpid => ?_)
  rw [h pid (Finset.mem_Ico.mp hpid).1]
  simp

theorem blockFluidSum_of_no_neighbors (visco : SPH.Viscosity_Weiler2018 K) (i : Nat)
    (h : visco.m_model.numberOfNeighbors 0 i = 0) : blockFluidSum visco i = 0 := by
  simp [blockFluidSum, h]

theorem blockBoundarySum_of_no_neighbors (visco : SPH.Viscosity_Weiler2018 K)
    (i : Nat) (h : ∀ pid, 1 ≤ pid → visco.m_model.numberOfNeighbors pid i = 0) :
    blockBoundarySum visco i = 0 := by
  unfold blockBoundarySum
  refine Finset.sum_eq_zero (fun pid hpid => ?_)
  rw [h pid (Finset.mem_Ico.mp hpid).1]
  simp

/-- C6. For every model state, every input vector and every active particle
`i` whose neighbour list is empty in every point set, the output of
`matrixVecProd` at slot `i` is the input at slot `i`, the full-block
`diagonalMatrixElement` returns the identity matrix for `i` and the
diagonal-only `diagonalMatrixElement` returns the all-ones vector for `i`. -/
theorem isolated_particle (tm : TimeManager K) (visco : SPH.Viscosity_Weiler2018 K)
    (vec result : Nat → K) (i : Nat) (hi : i < visco.m_model.numActiveParticles)
    (hiso : ∀ pid, visco.m_model.numberOfNeighbors pid i = 0) :
    mapVector3r (matrixVecProd tm vec result visco) i = mapVector3r vec i ∧
    diagonalMatrixElement_Matrix3r tm i visco = 1 ∧
    diagonalMatrixElement_Vector3r tm i visco = fun _ => 1 := by
  refine ⟨?_, ?_, ?_⟩
  · rw [matrixVecProd_slot tm visco vec result i hi,
      fluidSum_of_no_neighbors visco vec i (hiso 0),
      boundarySum_of_no_neighbors visco vec i (fun pid _ => hiso pid)]
    simp
  · rw [diagonalMatrixElement_Matrix3r_eq, blockFluidSum_of_no_neighbors visco i (hiso 0),
      blockBoundarySum_of_no_neighbors visco i (fun pid _ => hiso pid)]
    simp
  · rw [diagonalMatrixElement_Vector3r_eq, blockFluidSum_of_no_neighbors visco i (hiso 0),
      blockBoundarySum_of_no_neighbors visco i (fun pid _ => hiso pid)]
    simp

theorem isolated_particle_witness :
    1 < Example.viscoIsolated.m_model.numActiveParticles ∧
    (∀ pid, Example.viscoIsolated.m_model.numberOfNeighbors pid 1 = 0) ∧
    mapVector3r (matrixVecProd Example.tm Example.vec Example.zeroVec Example.viscoIsolated) 1
      = mapVector3r Example.vec 1 ∧
    diagonalMatrixElement_Matrix3r Example.tm 1 Example.viscoIsolated = 1 ∧
    diagonalMatrixElement_Vector3r Example.tm 1 Example.viscoIsolated = fun _ => 1 :=
  ⟨by decide, fun _ => rfl,
    isolated_particle Example.tm Example.viscoIsolated Example.vec Example.zeroVec 1
      (by decide) (fun _ => rfl)⟩

/-- C7. With exactly two fluid particles `0` and `1` that are each the only
neighbour of the other, no boundary neighbours, equal masses, equal densities
and an odd kernel gradient, the correction `matrixVecProd` applies to particle
`0` (output slot minus input slot) is the negation of the correction it applies
to particle `1`, for every input vector. -/
theorem pairwise_antisymmetry (tm : TimeManager K) (visco : SPH.Viscosity_Weiler2018 K)
    (vec result : Nat → K)
    (hN : visco.m_model.numActiveParticles = 2)
    (hn0 : visco.m_model.numberOfNeighbors 0 0 = 1)
    (hn1 : visco.m_model.numberOfNeighbors 0 1 = 1)
    (hnb0 : visco.m_model.getNeighbor 0 0 0 = 1)
    (hnb1 : visco.m_model.getNeighbor 0 1 0 = 0)
    (hbd : ∀ pid, 1 ≤ pid → visco.m_model.numberOfNeighbors pid 0 = 0 ∧
      visco.m_model.numberOfNeighbors pid 1 = 0)
    (hmass : visco.m_model.getMass 0 = visco.m_model.getMass 1)
    (hdens : visco.m_model.getDensity 0 = visco.m_model.getDensity 1)
    (hodd : ∀ r, visco.m_model.gradW (-r) = -visco.m_model.gradW r) :
    mapVector3r (matrixVecProd tm vec result visco) 0 - mapVector3r vec 0 =
      -(mapVector3r (matrixVecProd tm vec result visco) 1 - mapVector3r vec 1) := by
  rw [matrixVecProd_slot tm visco vec result 0 (by omega),
    matrixVecProd_slot tm visco vec result 1 (by omega),
    boundarySum_of_no_neighbors visco vec 0 (fun pid h => (hbd pid h).1),
    boundarySum_of_no_neighbors visco vec 1 (fun pid h => (hbd pid h).2)]
  simp only [fluidSum, hn0, hn1, Finset.sum_range_one, matrixVecProd_fluidTerm, hnb0, hnb1,
    add_zero]
  have hx : visco.m_model.getPosition 0 1 - visco.m_model.getPosition 0 0
      = -(visco.m_model.getPosition 0 0 - visco.m_model.getPosition 0 1) := by abel
  have hv : mapVector3r vec 1 - mapVector3r vec 0
      = -(mapVector3r vec 0 - mapVector3r vec 1) := by abel
  rw [hx, hv, hodd, dot_neg_neg, squaredNorm_neg, hmass, hdens]
  simp only [smul_neg, add_sub_cancel_left, neg_neg]
  module

theorem pairwise_antisymmetry_witness :
    Example.viscoPair.m_model.numActiveParticles = 2 ∧
    Example.viscoPair.m_model.numberOfNeighbors 0 0 = 1 ∧
    Example.viscoPair.m_model.numberOfNeighbors 0 1 = 1 ∧
    Example.viscoPair.m_model.getNeighbor 0 0 0 = 1 ∧
    Example.viscoPair.m_model.getNeighbor 0 1 0 = 0 ∧
    (∀ pid, 1 ≤ pid → Example.viscoPair.m_model.numberOfNeighbors pid 0 = 0 ∧
      Example.viscoPair.m_model.numberOfNeighbors pid 1 = 0) ∧
    Example.viscoPair.m_model.getMass 0 = Example.viscoPair.m_model.getMass 1 ∧
    Example.viscoPair.m_model.getDensity 0 = Example.viscoPair.m_model.getDensity 1 ∧
    (∀ r, Example.viscoPair.m_model.gradW (-r) = -Example.viscoPair.m_model.gradW r) ∧
    mapVector3r (matrixVecProd Example.tm Example.vec Example.zeroVec Example.viscoPair) 0
        - mapVector3r Example.vec 0 =
      -(mapVector3r (matrixVecProd Example.tm Example.vec Example.zeroVec Example.viscoPair) 1
        - mapVector3r Example.vec 1) :=
  have hbd : ∀ pid, 1 ≤ pid → Example.viscoPair.m_model.numberOfNeighbors pid 0 = 0 ∧
      Example.viscoPair.m_model.numberOfNeighbors pid 1 = 0 := fun pid h => by
    have hp : pid ≠ 0 := by omega
    simp [Example.viscoPair, ctor, hp]
  ⟨rfl, rfl, rfl, rfl, rfl, hbd, rfl, rfl, fun _ => rfl,
    pairwise_antisymmetry Example.tm Example.viscoPair Example.vec Example.zeroVec
      rfl rfl rfl rfl rfl hbd rfl rfl (fun _ => rfl)⟩

/-! ## The two preconditioner variants -/

/-- C8. The two preconditioner variants agree on the diagonal: for every model
state and every row, component `k` of the vector returned by the diagonal-only
`diagonalMatrixElement` is entry `(k, k)` of the matrix returned by the
full-block `diagonalMatrixElement`, which is
`1 − (dt/ρ_i)·Σ_j c_j·∇W_k·(x_i − x_j)_k`. -/
theorem diagonal_variants_agree (tm : TimeManager K) (visco : SPH.Viscosity_Weiler2018 K)
    (row : Nat) (k : Fin 3) :
    diagonalMatrixElement_Vector3r tm row visco k
      = diagonalMatrixElement_Matrix3r tm row visco k k ∧
    diagonalMatrixElement_Matrix3r tm row visco k k = spec_diagonal tm visco row k := by
  constructor
  · rw [diagonalMatrixElement_Vector3r_eq, diagonalMatrixElement_Matrix3r_eq]
    simp [Matrix.diag]
  · rw [diagonalMatrixElement_Matrix3r_eq]
    simp [spec_diagonal, blockFluidSum, blockBoundarySum, Matrix.sum_apply,
      diagonalMatrixElement_fluidTerm, diagonalMatrixElement_boundaryTerm, outer, pow_two]
    ring

/-- With no active particle `step` returns at once. -/
theorem step_of_zero (tm : TimeManager K) (solver : SolverCall K → SolverResult K)
    (useBlockDiagonal : Bool) (visco : SPH.Viscosity_Weiler2018 K)
    (h0 : visco.m_model.numActiveParticles = 0) :
    step tm solver useBlockDiagonal visco = some (visco, []) := by
  simp [step, h0]

/-- C9. When the active particle count is zero, `step` returns without invoking
the solver and leaves every acceleration of the model and the cache `m_vDiff`
(its entries and its length) unchanged; indeed the whole object is unchanged. -/
theorem step_noop_on_empty (tm : TimeManager K) (solver : SolverCall K → SolverResult K)
    (useBlockDiagonal : Bool) (visco : SPH.Viscosity_Weiler2018 K)
    (h0 : visco.m_model.numActiveParticles = 0) :
    ∃ (after : SPH.Viscosity_Weiler2018 K) (calls : List (SolverCall K)),
      step tm solver useBlockDiagonal visco = some (after, calls) ∧
      calls = [] ∧
      after.m_model.getAcceleration = visco.m_model.getAcceleration ∧
      after.m_vDiff = visco.m_vDiff ∧
      after.m_vDiff.length = visco.m_vDiff.length ∧
      after = visco :=
  ⟨visco, [], step_of_zero tm solver useBlockDiagonal visco h0, rfl, rfl, rfl, rfl, rfl⟩

theorem step_noop_on_empty_witness :
    (Example.deactivate Example.visco).m_model.numActiveParticles = 0 ∧
    ∃ (after : SPH.Viscosity_Weiler2018 ℚ) (calls : List (SolverCall ℚ)),
      step Example.tm Example.solver true (Example.deactivate Example.visco)
        = some (after, calls) ∧
      calls = [] ∧
      after.m_model.getAcceleration = (Example.deactivate Example.visco).m_model.getAcceleration ∧
      after.m_vDiff = (Example.deactivate Example.visco).m_vDiff ∧
      after.m_vDiff.length = (Example.deactivate Example.visco).m_vDiff.length ∧
      after = Example.deactivate Example.visco :=
  ⟨rfl, step_noop_on_empty Example.tm Example.solver true (Example.deactivate Example.visco) rfl⟩

/-- C10, amended. After `step` with active particle count zero the value
`m_iterations` is the value it had before the call. -/
theorem step_empty_keeps_iterations (tm : TimeManager K)
    (solver : SolverCall K → SolverResult K) (useBlockDiagonal : Bool)
    (visco : SPH.Viscosity_Weiler2018 K)
    (h0 : visco.m_model.numActiveParticles = 0) :
    ∃ (after : SPH.Viscosity_Weiler2018 K) (calls : List (SolverCall K)),
      step tm solver useBlockDiagonal visco = some (after, calls) ∧
      after.m_iterations = visco.m_iterations :=
  ⟨visco, [], step_of_zero tm solver useBlockDiagonal visco h0, rfl⟩

theorem step_empty_keeps_iterations_witness :
    (Example.deactivate { Example.visco with m_iterations := 7 }).m_model.numActiveParticles
      = 0 ∧
    ∃ (after : SPH.Viscosity_Weiler2018 ℚ) (calls : List (SolverCall ℚ)),
      step Example.tm Example.solver false
          (Example.deactivate { Example.visco with m_iterations := 7 })
        = some (after, calls) ∧
      after.m_iterations
        = (Example.deactivate { Example.visco with m_iterations := 7 }).m_iterations :=
  ⟨rfl, step_empty_keeps_iterations Example.tm Example.solver false
    (Example.deactivate { Example.visco with m_iterations := 7 }) rfl⟩

/-- C10 as stated fails: a step with two active particles records the seven
iterations the solver reports; after the active particle count drops to zero
the next step leaves `m_iterations` at seven. -/
theorem iterations_stale_after_empty_step :
    ∃ (v1 v2 : SPH.Viscosity_Weiler2018 ℚ) (calls1 calls2 : List (SolverCall ℚ)),
      step Example.tm Example.solver true Example.visco = some (v1, calls1) ∧
      (Example.deactivate v1).m_model.numActiveParticles = 0 ∧
      step Example.tm Example.solver true (Example.deactivate v1) = some (v2, calls2) ∧
      v2.m_iterations = 7 ∧ v2.m_iterations ≠ 0 := by
  obtain ⟨call, acc, vd, hstep, -⟩ :=
    step_spec Example.tm Example.solver true Example.visco (by decide) (by decide)
  refine ⟨_, _, _, _, hstep, rfl, step_of_zero _ _ _ _ rfl, rfl, ?_⟩
  exact Nat.succ_ne_zero 6

/-! ## The size of the warm start cache -/

theorem step_rhsBody_none (visco : SPH.Viscosity_Weiler2018 K) (i : Nat)
    (hi : visco.m_vDiff.length ≤ i) (bg : List K × List K) :
    step_rhsBody visco i bg = none := by
  simp [step_rhsBody, List.getElem?_eq_none hi]

/-- The right-hand side loop fails when it runs past the end of the cache. -/
theorem step_rhsLoop_none (visco : SPH.Viscosity_Weiler2018 K) (n : Nat)
    (hn : visco.m_vDiff.length < n) (bg : List K × List K) :
    forLoopM n (step_rhsBody visco) bg = none := by
  induction n with
  | zero => omega
  | succ n ih =>
    rw [forLoopM_succ]
    cases hloop : forLoopM n (step_rhsBody visco) bg with
    | none => rfl
    | some s =>
      have hlen : ¬ visco.m_vDiff.length < n := fun hlt => by
        rw [ih hlt] at hloop
        cases hloop
      exact step_rhsBody_none visco n (by omega) s

/-- With more active particles than cache entries `step` fails. -/
theorem step_none (tm : TimeManager K) (solver : SolverCall K → SolverResult K)
    (useBlockDiagonal : Bool) (visco : SPH.Viscosity_Weiler2018 K)
    (hsz : visco.m_vDiff.length < visco.m_model.numActiveParticles) :
    step tm solver useBlockDiagonal visco = none := by
  have h0 : visco.m_model.numActiveParticles ≠ 0 := by omega
  simp only [step, h0, if_false, step_rhsLoop_none visco _ hsz]

/-- A successful `step` keeps the length of the cache and the particle counts
of the model. -/
theorem step_counts (tm : TimeManager K) (solver : SolverCall K → SolverResult K)
    (useBlockDiagonal : Bool) (visco after : SPH.Viscosity_Weiler2018 K)
    (calls : List (SolverCall K))
    (h : step tm solver useBlockDiagonal visco = some (after, calls)) :
    after.m_vDiff.length = visco.m_vDiff.length ∧
    after.m_model.numParticles = visco.m_model.numParticles ∧
    after.m_model.numActiveParticles = visco.m_model.numActiveParticles := by
  by_cases h0 : visco.m_model.numActiveParticles = 0
  · rw [step_of_zero tm solver useBlockDiagonal visco h0] at h
    cases h
    exact ⟨rfl, rfl, rfl⟩
  · by_cases hsz : visco.m_model.numActiveParticles ≤ visco.m_vDiff.length
    · obtain ⟨call, acc, vd, hstep, -, -, hlen, -, -⟩ :=
        step_spec tm solver useBlockDiagonal visco h0 hsz
      rw [hstep] at h
      cases h
      exact ⟨hlen, rfl, rfl⟩
    · rw [step_none tm solver useBlockDiagonal visco (by omega)] at h
      cases h


/-- One event keeps the length of the cache, and the particle count when a change
of the model keeps it. -/
theorem apply_counts (e : Event K) (visco after : SPH.Viscosity_Weiler2018 K) (n : Nat)
    (he : ∀ m, e = Event.modelChange m → m.numParticles = n)
    (h : e.apply visco = some after)
    (hinv : visco.m_vDiff.length = n ∧ visco.m_model.numParticles = n) :
    after.m_vDiff.length = n ∧ after.m_model.numParticles = n := by
  cases e with
  | step tm solver useBlockDiagonal =>
    simp only [Event.apply, Option.map_eq_some'] at h
    obtain ⟨⟨a, calls⟩, hstep, ha⟩ := h
    simp only at ha
    subst ha
    obtain ⟨h1, h2, -⟩ := step_counts tm solver useBlockDiagonal visco a calls hstep
    exact ⟨h1.trans hinv.1, h2.trans hinv.2⟩
  | reset =>
    simp only [Event.apply, reset, Option.some.injEq] at h
    subst h
    exact hinv
  | performNeighborhoodSearchSort =>
    simp only [Event.apply, performNeighborhoodSearchSort, Option.some.injEq] at h
    subst h
    exact hinv
  | modelChange m =>
    simp only [Event.apply, Option.some.injEq] at h
    subst h
    exact ⟨hinv.1, he m rfl⟩

/-- A history keeps the length of the cache, and the particle count when every
change of the model keeps it. -/
theorem run_counts (events : List (Event K)) (n : Nat)
    (hkeep : ∀ e, e ∈ events → ∀ m, e = Event.modelChange m → m.numParticles = n) :
    ∀ (visco after : SPH.Viscosity_Weiler2018 K), run events visco = some after →
      visco.m_vDiff.length = n ∧ visco.m_model.numParticles = n →
      after.m_vDiff.length = n ∧ after.m_model.numParticles = n := by
  induction events with
  | nil =>
    intro visco after h hinv
    simp only [run, List.foldlM, pure, Option.some.injEq] at h
    subst h
    exact hinv
  | cons e es ih =>
    intro visco after h hinv
    simp only [run, List.foldlM, bind, Option.bind_eq_some] at h
    obtain ⟨mid, hmid, hrest⟩ := h
    exact ih (fun e2 he2 => hkeep e2 (List.mem_cons_of_mem e he2)) mid after hrest
      (apply_counts e visco mid n (hkeep e (List.mem_cons_self e es)) hmid hinv)


/-- A step succeeds when the cache covers the active particles. -/
theorem step_isSome (tm : TimeManager K) (solver : SolverCall K → SolverResult K)
    (useBlockDiagonal : Bool) (visco : SPH.Viscosity_Weiler2018 K)
    (hsz : visco.m_model.numActiveParticles ≤ visco.m_vDiff.length) :
    ∃ r, step tm solver useBlockDiagonal visco = some r := by
  by_cases h0 : visco.m_model.numActiveParticles = 0
  · exact ⟨_, step_of_zero tm solver useBlockDiagonal visco h0⟩
  · obtain ⟨call, acc, vd, hstep, -⟩ := step_spec tm solver useBlockDiagonal visco h0 hsz
    exact ⟨_, hstep⟩

/-- C11, amended. In every state reachable from construction by any sequence of
`step`, `reset`, `performNeighborhoodSearchSort` and external changes of the
model that keep its particle count, the length of `m_vDiff` is the particle
count of the model (the one it had at construction: the cache is sized by the
constructor and never resized); so, whenever the active particle count does not
exceed the particle count, every access `m_vDiff[i]` for `i` below the active
particle count is in range and `step` succeeds. -/
theorem cache_size_invariant (model : FluidModel K) (viscosity boundaryViscosity : K)
    (events : List (Event K)) (after : SPH.Viscosity_Weiler2018 K)
    (hkeep : ∀ e, e ∈ events → ∀ m, e = Event.modelChange m →
      m.numParticles = model.numParticles)
    (hrun : run events (ctor model viscosity boundaryViscosity) = some after) :
    after.m_vDiff.length = after.m_model.numParticles ∧
    after.m_vDiff.length = model.numParticles ∧
    (after.m_model.numActiveParticles ≤ after.m_model.numParticles →
      (∀ i, i < after.m_model.numActiveParticles → i < after.m_vDiff.length) ∧
      ∀ tm solver useBlockDiagonal, ∃ r, step tm solver useBlockDiagonal after = some r) := by
  obtain ⟨h1, h2⟩ := run_counts events model.numParticles hkeep
    (ctor model viscosity boundaryViscosity) after hrun ⟨by simp [ctor], rfl⟩
  refine ⟨h1.trans h2.symm, h1, fun hact => ⟨fun i hi => by omega, ?_⟩⟩
  intro tm solver useBlockDiagonal
  exact step_isSome tm solver useBlockDiagonal after (by omega)

/-- The history `Example.events` can be carried out from `Example.visco`. -/
theorem example_events_run : ∃ after, run Example.events Example.visco = some after := by
  obtain ⟨call, acc, vd, hstep, -, -, hlen, -, -⟩ :=
    step_spec Example.tm Example.solver true Example.visco (by decide) (by decide)
  obtain ⟨r, hr⟩ := step_isSome Example.tm Example.solver false
    { m_model := { Example.model with numActiveParticles := 1 }
      m_viscosity := Example.visco.m_viscosity
      m_boundaryViscosity := Example.visco.m_boundaryViscosity
      m_maxIter := Example.visco.m_maxIter
      m_maxError := Example.visco.m_maxError
      m_iterations := (Example.solver call).iterations
      m_vDiff := vd }
    (by
      show 1 ≤ vd.length
      rw [hlen]
      decide)
  refine ⟨r.1, ?_⟩
  simp only [run, Example.events, List.foldlM, Event.apply, hstep, bind, pure, Option.map_some',
    Option.some_bind, reset, performNeighborhoodSearchSort, hr]

theorem cache_size_invariant_witness :
    (∀ e, e ∈ Example.events → ∀ m, e = Event.modelChange m →
      m.numParticles = Example.model.numParticles) ∧
    ∃ after, run Example.events (ctor Example.model 1 1) = some after ∧
      after.m_vDiff.length = after.m_model.numParticles ∧
      after.m_vDiff.length = Example.model.numParticles ∧
      (after.m_model.numActiveParticles ≤ after.m_model.numParticles →
        (∀ i, i < after.m_model.numActiveParticles → i < after.m_vDiff.length) ∧
        ∀ tm solver useBlockDiagonal, ∃ r, step tm solver useBlockDiagonal after = some r) := by
  have hkeep : ∀ e, e ∈ Example.events → ∀ m, e = Event.modelChange m →
      m.numParticles = Example.model.numParticles := by
    intro e he m hm
    subst hm
    simp only [Example.events, List.mem_cons, List.mem_singleton, Event.modelChange.injEq,
      reduceCtorEq, false_or, or_false, List.not_mem_nil] at he
    subst he
    rfl
  obtain ⟨after, hafter⟩ := example_events_run
  exact ⟨hkeep, after, hafter, cache_size_invariant Example.model 1 1 Example.events after
    hkeep hafter⟩

/-- C11 as stated fails: after the particle count of the model has grown from
two to three the cache still has two entries, and `step` then reads
`m_vDiff[2]` out of range. -/
theorem cache_size_not_invariant :
    ∃ after, run [Event.modelChange Example.grownModel] (ctor Example.model 1 1) = some after ∧
      after.m_vDiff.length = 2 ∧ after.m_model.numParticles = 3 ∧
      after.m_vDiff.length ≠ after.m_model.numParticles ∧
      2 < after.m_model.numActiveParticles ∧ after.m_vDiff[2]? = none ∧
      step Example.tm Example.solver true after = none :=
  ⟨{ ctor Example.model 1 1 with m_model := Example.grownModel }, rfl, rfl, rfl, by decide,
    by decide, rfl, step_none Example.tm Example.solver true _ (by decide)⟩


/-! ## The constructor, the hooks and the frame of `step` -/

/-- C12. The operator does not read the velocity field of the fluid: for every
input vector and every two model states that differ only in the velocities of
point set `0`, `matrixVecProd` produces the same output. -/
theorem matrixVecProd_ignores_fluid_velocity (tm : TimeManager K)
    (visco : SPH.Viscosity_Weiler2018 K) (vec result : Nat → K)
    (getVelocity2 : Nat → Nat → Vector3r K)
    (h : ∀ pid, pid ≠ 0 → getVelocity2 pid = visco.m_model.getVelocity pid) :
    matrixVecProd tm vec result
        { visco with m_model := { visco.m_model with getVelocity := getVelocity2 } }
      = matrixVecProd tm vec result visco := by
  have hai : ∀ i, matrixVecProd_ai
      { visco with m_model := { visco.m_model with getVelocity := getVelocity2 } } vec i
      = matrixVecProd_ai visco vec i := by
    intro i
    rw [matrixVecProd_ai_eq, matrixVecProd_ai_eq]
    congr 1
    unfold boundarySum
    refine Finset.sum_congr rfl (fun pid hpid => Finset.sum_congr rfl (fun j _ => ?_))
    have hp : pid ≠ 0 := by
      have := (Finset.mem_Ico.mp hpid).1
      omega
    simp only [matrixVecProd_boundaryTerm, h pid hp]
  have hbody : matrixVecProd_body tm
      { visco with m_model := { visco.m_model with getVelocity := getVelocity2 } } vec
      = matrixVecProd_body tm visco vec := by
    funext i r
    simp only [matrixVecProd_body, hai]
  simp only [matrixVecProd, hbody]

theorem matrixVecProd_ignores_fluid_velocity_witness :
    (∀ pid, pid ≠ 0 → Example.otherVelocity pid = Example.visco.m_model.getVelocity pid) ∧
    matrixVecProd Example.tm Example.vec Example.zeroVec
        { Example.visco with m_model := { Example.visco.m_model with
            getVelocity := Example.otherVelocity } }
      = matrixVecProd Example.tm Example.vec Example.zeroVec Example.visco :=
  have h : ∀ pid, pid ≠ 0 →
      Example.otherVelocity pid = Example.visco.m_model.getVelocity pid := fun pid hp => by
    funext i
    simp [Example.otherVelocity, Example.visco, ctor, hp]
  ⟨h, matrixVecProd_ignores_fluid_velocity Example.tm Example.visco Example.vec Example.zeroVec
    Example.otherVelocity h⟩

/-- C13. For every model, right after construction `m_maxIter` is 100,
`m_maxError` is 0.01, `m_iterations` is 0 and `m_vDiff` has as many entries as
the model has particles, each the zero vector. -/
theorem ctor_postcondition (model : FluidModel K) (viscosity boundaryViscosity : K) :
    (ctor model viscosity boundaryViscosity).m_maxIter = 100 ∧
    (ctor model viscosity boundaryViscosity).m_maxError = 1 / 100 ∧
    (ctor model viscosity boundaryViscosity).m_iterations = 0 ∧
    (ctor model viscosity boundaryViscosity).m_vDiff.length = model.numParticles ∧
    ∀ d, d ∈ (ctor model viscosity boundaryViscosity).m_vDiff → d = 0 := by
  refine ⟨rfl, rfl, rfl, by simp [ctor], fun d hd => ?_⟩
  simp only [ctor] at hd
  exact (List.mem_replicate.mp hd).2

/-- C14 fails on the code: the constructor body does not assign
`m_boundaryViscosity`, so after construction the member holds whatever it held
before the body ran (here one), not zero. -/
theorem ctor_leaves_boundaryViscosity :
    (∀ (model : FluidModel ℚ) (viscosity boundaryViscosity : ℚ),
      (ctor model viscosity boundaryViscosity).m_boundaryViscosity = boundaryViscosity) ∧
    (ctor Example.model 1 1).m_boundaryViscosity = 1 ∧
    (ctor Example.model 1 1).m_boundaryViscosity ≠ 0 :=
  ⟨fun _ _ _ => rfl, rfl, by
    show (1 : ℚ) ≠ 0
    norm_num⟩

/-- C15. The methods `reset` and `performNeighborhoodSearchSort` change nothing:
after either call the object (cache, tunables, model) is the object before, so
the next `step` behaves as if the call had not been made and reads the cache
the previous step wrote. -/
theorem reset_and_sort_are_noops (visco : SPH.Viscosity_Weiler2018 K) :
    reset visco = visco ∧ performNeighborhoodSearchSort visco = visco ∧
    (reset visco).m_vDiff = visco.m_vDiff ∧
    (performNeighborhoodSearchSort visco).m_vDiff = visco.m_vDiff ∧
    (∀ (tm : TimeManager K) (solver : SolverCall K → SolverResult K) (useBlockDiagonal : Bool),
      step tm solver useBlockDiagonal (reset visco) = step tm solver useBlockDiagonal visco ∧
      step tm solver useBlockDiagonal (performNeighborhoodSearchSort visco)
        = step tm solver useBlockDiagonal visco) :=
  ⟨rfl, rfl, rfl, rfl, fun _ _ _ => ⟨rfl, rfl⟩⟩

/-- C16. For every `step` with at least one active particle (and a cache that
covers the active particles), `m_iterations` after the step is the iteration
count the solver reports for the solve of that step, whatever it was before. -/
theorem step_records_iterations (tm : TimeManager K)
    (solver : SolverCall K → SolverResult K) (useBlockDiagonal : Bool)
    (visco : SPH.Viscosity_Weiler2018 K)
    (hN : 1 ≤ visco.m_model.numActiveParticles)
    (hsz : visco.m_model.numActiveParticles ≤ visco.m_vDiff.length) :
    ∃ (after : SPH.Viscosity_Weiler2018 K) (call : SolverCall K),
      step tm solver useBlockDiagonal visco = some (after, [call]) ∧
      after.m_iterations = (solver call).iterations := by
  obtain ⟨call, acc, vd, hstep, -⟩ := step_spec tm solver useBlockDiagonal visco (by omega) hsz
  exact ⟨_, call, hstep, rfl⟩

theorem step_records_iterations_witness :
    1 ≤ Example.visco.m_model.numActiveParticles ∧
    Example.visco.m_model.numActiveParticles ≤ Example.visco.m_vDiff.length ∧
    ∃ (after : SPH.Viscosity_Weiler2018 ℚ) (call : SolverCall ℚ),
      step Example.tm Example.solver true { Example.visco with m_iterations := 3 }
        = some (after, [call]) ∧
      after.m_iterations = (Example.solver call).iterations :=
  ⟨by decide, by decide,
    step_records_iterations Example.tm Example.solver true
      { Example.visco with m_iterations := 3 } (by decide) (by decide)⟩

/-- C19. For every `step` with `N ≥ 1` active particles (and a cache that covers
the active particles) the positions, velocities, densities and masses of all
particles are unchanged, the acceleration and the cache entry of every particle
`i ≥ N` are unchanged, and the length of `m_vDiff` is unchanged. -/
theorem step_frame (tm : TimeManager K)
    (solver : SolverCall K → SolverResult K) (useBlockDiagonal : Bool)
    (visco : SPH.Viscosity_Weiler2018 K)
    (hN : 1 ≤ visco.m_model.numActiveParticles)
    (hsz : visco.m_model.numActiveParticles ≤ visco.m_vDiff.length) :
    ∃ (after : SPH.Viscosity_Weiler2018 K) (calls : List (SolverCall K)),
      step tm solver useBlockDiagonal visco = some (after, calls) ∧
      after.m_model.getPosition = visco.m_model.getPosition ∧
      after.m_model.getVelocity = visco.m_model.getVelocity ∧
      after.m_model.getDensity = visco.m_model.getDensity ∧
      after.m_model.getMass = visco.m_model.getMass ∧
      (∀ i, visco.m_model.numActiveParticles ≤ i →
        after.m_model.getAcceleration i = visco.m_model.getAcceleration i ∧
        after.m_vDiff[i]? = visco.m_vDiff[i]?) ∧
      after.m_vDiff.length = visco.m_vDiff.length := by
  obtain ⟨call, acc, vd, hstep, -, -, hlen, hacc, hvd⟩ :=
    step_spec tm solver useBlockDiagonal visco (by omega) hsz
  refine ⟨_, _, hstep, rfl, rfl, rfl, rfl, fun i hi => ?_, hlen⟩
  have ha := hacc i
  have hv := hvd i
  rw [if_neg (by omega)] at ha hv
  exact ⟨ha, hv⟩

theorem step_frame_witness :
    1 ≤ Example.viscoOneActive.m_model.numActiveParticles ∧
    Example.viscoOneActive.m_model.numActiveParticles ≤ Example.viscoOneActive.m_vDiff.length ∧
    ∃ (after : SPH.Viscosity_Weiler2018 ℚ) (calls : List (SolverCall ℚ)),
      step Example.tm Example.solver true Example.viscoOneActive = some (after, calls) ∧
      after.m_model.getPosition = Example.viscoOneActive.m_model.getPosition ∧
      after.m_model.getVelocity = Example.viscoOneActive.m_model.getVelocity ∧
      after.m_model.getDensity = Example.viscoOneActive.m_model.getDensity ∧
      after.m_model.getMass = Example.viscoOneActive.m_model.getMass ∧
      (∀ i, Example.viscoOneActive.m_model.numActiveParticles ≤ i →
        after.m_model.getAcceleration i = Example.viscoOneActive.m_model.getAcceleration i ∧
        after.m_vDiff[i]? = Example.viscoOneActive.m_vDiff[i]?) ∧
      after.m_vDiff.length = Example.viscoOneActive.m_vDiff.length :=
  ⟨by decide, by decide,
    step_frame Example.tm Example.solver true Example.viscoOneActive (by decide) (by decide)⟩

/-! ## Linearity of the operator -/

/-- A coefficient of the output of `matrixVecProd` below `3 N`. -/
theorem matrixVecProd_apply (tm : TimeManager K) (visco : SPH.Viscosity_Weiler2018 K)
    (vec result : Nat → K) (s : Nat) (hs : s < 3 * visco.m_model.numActiveParticles) :
    matrixVecProd tm vec result visco s =
      vec s - tm.getTimeStepSize / visco.m_model.getDensity (s / 3)
        * (fluidSum visco vec (s / 3) + boundarySum visco vec (s / 3))
            ⟨s % 3, Nat.mod_lt s (by decide)⟩ := by
  have hi : s / 3 < visco.m_model.numActiveParticles := by omega
  have hslot := congrFun (matrixVecProd_slot tm visco vec result (s / 3) hi)
    ⟨s % 3, Nat.mod_lt s (by decide)⟩
  have hsk : 3 * (s / 3) + s % 3 = s := by omega
  simpa only [mapVector3r, hsk, Pi.sub_apply, Pi.smul_apply, smul_eq_mul] using hslot

theorem dot_smul_add_left (c : K) (a b x : Vector3r K) :
    dot (c • a + b) x = c * dot a x + dot b x := by
  simp only [dot, Pi.add_apply, Pi.smul_apply, smul_eq_mul]; ring

theorem mapVector3r_smul_add (c : K) (u w : Nat → K) (i : Nat) :
    mapVector3r (fun t => c * u t + w t) i = c • mapVector3r u i + mapVector3r w i := by
  funext k
  simp [mapVector3r]

theorem fluidTerm_smul_add (visco : SPH.Viscosity_Weiler2018 K) (c : K) (u w : Nat → K)
    (i j : Nat) :
    matrixVecProd_fluidTerm visco (fun t => c * u t + w t) i j =
      c • matrixVecProd_fluidTerm visco u i j + matrixVecProd_fluidTerm visco w i j := by
  simp only [matrixVecProd_fluidTerm, mapVector3r_smul_add]
  have hsub : ∀ a b a2 b2 : Vector3r K, c • a + b - (c • a2 + b2) = c • (a - a2) + (b - b2) := by
    intro a b a2 b2
    module
  rw [hsub, dot_smul_add_left, smul_smul, ← add_smul]
  congr 1
  ring

theorem boundaryTerm_smul_add (visco : SPH.Viscosity_Weiler2018 K) (c : K) (u w : Nat → K)
    (i pid j : Nat)
    (hb : visco.m_boundaryViscosity = 0 ∨
      visco.m_model.getVelocity pid (visco.m_model.getNeighbor pid i j) = 0) :
    matrixVecProd_boundaryTerm visco (fun t => c * u t + w t) i pid j =
      c • matrixVecProd_boundaryTerm visco u i pid j
        + matrixVecProd_boundaryTerm visco w i pid j := by
  rcases hb with hb | hb
  · simp [matrixVecProd_boundaryTerm, hb]
  · simp only [matrixVecProd_boundaryTerm, mapVector3r_smul_add, hb, sub_zero]
    rw [dot_smul_add_left, smul_smul, ← add_smul]
    congr 1
    ring

theorem fluidSum_smul_add (visco : SPH.Viscosity_Weiler2018 K) (c : K) (u w : Nat → K)
    (i : Nat) :
    fluidSum visco (fun t => c * u t + w t) i = c • fluidSum visco u i + fluidSum visco w i := by
  simp only [fluidSum, fluidTerm_smul_add, Finset.sum_add_distrib, Finset.smul_sum]

theorem boundarySum_smul_add (visco : SPH.Viscosity_Weiler2018 K) (c : K) (u w : Nat → K)
    (i : Nat)
    (hb : visco.m_boundaryViscosity = 0 ∨
      ∀ pid, 1 ≤ pid → pid < visco.m_model.numberOfPointSets →
        ∀ j, j < visco.m_model.numberOfNeighbors pid i →
          visco.m_model.getVelocity pid (visco.m_model.getNeighbor pid i j) = 0) :
    boundarySum visco (fun t => c * u t + w t) i
      = c • boundarySum visco u i + boundarySum visco w i := by
  simp only [boundarySum, Finset.smul_sum, ← Finset.sum_add_distrib]
  refine Finset.sum_congr rfl (fun pid hpid => Finset.sum_congr rfl (fun j hj => ?_))
  apply boundaryTerm_smul_add
  rcases hb with hb | hb
  · exact Or.inl hb
  · have hp := Finset.mem_Ico.mp hpid
    exact Or.inr (hb pid hp.1 hp.2 j (Finset.mem_range.mp hj))

/-- C18. When the boundary viscosity is zero or every boundary neighbour of
every active particle has zero velocity, the operator is linear: for all input
vectors `u`, `w` and every scalar `c`, `matrixVecProd (c·u + w)` is
`c·matrixVecProd u + matrixVecProd w`. -/
theorem matrixVecProd_linear (tm : TimeManager K) (visco : SPH.Viscosity_Weiler2018 K)
    (hb : visco.m_boundaryViscosity = 0 ∨
      ∀ i, i < visco.m_model.numActiveParticles →
        ∀ pid, 1 ≤ pid → pid < visco.m_model.numberOfPointSets →
          ∀ j, j < visco.m_model.numberOfNeighbors pid i →
            visco.m_model.getVelocity pid (visco.m_model.getNeighbor pid i j) = 0)
    (u w result1 result2 result3 : Nat → K) (c : K)
    (s : Nat) (hs : s < 3 * visco.m_model.numActiveParticles) :
    matrixVecProd tm (fun t => c * u t + w t) result1 visco s =
      c * matrixVecProd tm u result2 visco s + matrixVecProd tm w result3 visco s := by
  have hi : s / 3 < visco.m_model.numActiveParticles := by omega
  have hb2 : visco.m_boundaryViscosity = 0 ∨
      ∀ pid, 1 ≤ pid → pid < visco.m_model.numberOfPointSets →
        ∀ j, j < visco.m_model.numberOfNeighbors pid (s / 3) →
          visco.m_model.getVelocity pid (visco.m_model.getNeighbor pid (s / 3) j) = 0 := by
    rcases hb with hb | hb
    · exact Or.inl hb
    · exact Or.inr (hb (s / 3) hi)
  rw [matrixVecProd_apply tm visco _ result1 s hs, matrixVecProd_apply tm visco u result2 s hs,
    matrixVecProd_apply tm visco w result3 s hs, fluidSum_smul_add,
    boundarySum_smul_add visco c u w (s / 3) hb2]
  simp only [Pi.add_apply, Pi.smul_apply, smul_eq_mul]
  ring

theorem matrixVecProd_linear_witness :
    (Example.viscoNoBoundaryViscosity.m_boundaryViscosity = 0 ∨
      ∀ i, i < Example.viscoNoBoundaryViscosity.m_model.numActiveParticles →
        ∀ pid, 1 ≤ pid → pid < Example.viscoNoBoundaryViscosity.m_model.numberOfPointSets →
          ∀ j, j < Example.viscoNoBoundaryViscosity.m_model.numberOfNeighbors pid i →
            Example.viscoNoBoundaryViscosity.m_model.getVelocity pid
              (Example.viscoNoBoundaryViscosity.m_model.getNeighbor pid i j) = 0) ∧
    3 < 3 * Example.viscoNoBoundaryViscosity.m_model.numActiveParticles ∧
    matrixVecProd Example.tm (fun t => 2 * Example.vec t + Example.zeroVec t) Example.zeroVec
        Example.viscoNoBoundaryViscosity 3 =
      2 * matrixVecProd Example.tm Example.vec Example.zeroVec Example.viscoNoBoundaryViscosity 3
        + matrixVecProd Example.tm Example.zeroVec Example.zeroVec
            Example.viscoNoBoundaryViscosity 3 :=
  ⟨Or.inl rfl, by decide,
    matrixVecProd_linear Example.tm Example.viscoNoBoundaryViscosity (Or.inl rfl) Example.vec
      Example.zeroVec Example.zeroVec Example.zeroVec Example.zeroVec 2 3 (by decide)⟩

/-! ## Self-adjointness of the operator -/

theorem sum_range_three_mul (n : Nat) (f : Nat → K) :
    ∑ s in Finset.range (3 * n), f s
      = ∑ i in Finset.range n, (f (3 * i) + f (3 * i + 1) + f (3 * i + 2)) := by
  induction n with
  | zero => simp
  | succ n ih =>
    have h3 : 3 * (n + 1) = 3 * n + 1 + 1 + 1 := by ring
    rw [h3, Finset.sum_range_succ, Finset.sum_range_succ, Finset.sum_range_succ, ih,
      Finset.sum_range_succ (fun i => f (3 * i) + f (3 * i + 1) + f (3 * i + 2))]
    ring

theorem innerProduct_eq_sum_dot (n : Nat) (a b : Nat → K) :
    innerProduct (3 * n) a b
      = ∑ i in Finset.range n, dot (mapVector3r a i) (mapVector3r b i) := by
  rw [innerProduct, sum_range_three_mul]
  refine Finset.sum_congr rfl (fun i _ => ?_)
  simp [dot, mapVector3r]

theorem dot_comm (a b : Vector3r K) : dot a b = dot b a := by
  simp only [dot]; ring

theorem dot_sub_right (a b c : Vector3r K) : dot a (b - c) = dot a b - dot a c := by
  simp only [dot, Pi.sub_apply]; ring

theorem dot_sub_left (a b c : Vector3r K) : dot (a - b) c = dot a c - dot b c := by
  simp only [dot, Pi.sub_apply]; ring

theorem dot_smul_right (c : K) (a b : Vector3r K) : dot a (c • b) = c * dot a b := by
  simp only [dot, Pi.smul_apply, smul_eq_mul]; ring

theorem dot_neg_right (a b : Vector3r K) : dot a (-b) = -dot a b := by
  simp only [dot, Pi.neg_apply]; ring

theorem dot_zero_right (a : Vector3r K) : dot a 0 = 0 := by
  simp [dot]

theorem dot_add_right (a b c : Vector3r K) : dot a (b + c) = dot a b + dot a c := by
  simp only [dot, Pi.add_apply]; ring

theorem dot_sum_right {ι : Type} (s : Finset ι) (a : Vector3r K) (f : ι → Vector3r K) :
    dot a (∑ x in s, f x) = ∑ x in s, dot a (f x) := by
  classical
  induction s using Finset.induction_on with
  | empty => simp [dot_zero_right]
  | insert hx ih => rw [Finset.sum_insert hx, Finset.sum_insert hx, dot_add_right, ih]

/-- A sum over the neighbour slots of a particle is a sum over the particles
that are its neighbours, when no neighbour is listed twice and all are below
`n`. -/
theorem sum_neighbor_slots (visco : SPH.Viscosity_Weiler2018 K) (i n : Nat)
    (hnodup : (neighborList visco i).Nodup)
    (hrange : ∀ j, j ∈ neighborList visco i → j < n) (g : Nat → K) :
    ∑ s in Finset.range (visco.m_model.numberOfNeighbors 0 i),
        g (visco.m_model.getNeighbor 0 i s)
      = ∑ j in Finset.range n, if j ∈ neighborList visco i then g j else 0 := by
  have h1 : ∑ s in Finset.range (visco.m_model.numberOfNeighbors 0 i),
        g (visco.m_model.getNeighbor 0 i s) = ((neighborList visco i).map g).sum := by
    have hr : (List.range (visco.m_model.numberOfNeighbors 0 i)).toFinset
        = Finset.range (visco.m_model.numberOfNeighbors 0 i) := by
      ext x
      simp
    rw [neighborList, List.map_map, ← List.sum_toFinset _ (List.nodup_range _), hr]
    rfl
  have h2 : Finset.range n ∩ (neighborList visco i).toFinset = (neighborList visco i).toFinset := by
    apply Finset.inter_eq_right.mpr
    intro j hj
    exact Finset.mem_range.mpr (hrange j (List.mem_toFinset.mp hj))
  rw [h1, ← List.sum_toFinset _ hnodup, ← h2, ← Finset.sum_ite_mem]
  simp only [List.mem_toFinset]


theorem innerProduct_comm (n : Nat) (a b : Nat → K) : innerProduct n a b = innerProduct n b a := by
  simp only [innerProduct, mul_comm]

theorem boundarySum_of_boundaryViscosity_zero (visco : SPH.Viscosity_Weiler2018 K)
    (vec : Nat → K) (i : Nat) (h : visco.m_boundaryViscosity = 0) :
    boundarySum visco vec i = 0 := by
  simp [boundarySum, matrixVecProd_boundaryTerm, h]

/-- The inner product of `w` with the output of the operator on `u`, when the
boundary sums vanish. -/
theorem innerProduct_matrixVecProd (tm : TimeManager K) (visco : SPH.Viscosity_Weiler2018 K)
    (u w result : Nat → K)
    (hb : ∀ i, i < visco.m_model.numActiveParticles → boundarySum visco u i = 0) :
    innerProduct (3 * visco.m_model.numActiveParticles) w (matrixVecProd tm u result visco)
      = ∑ i in Finset.range visco.m_model.numActiveParticles,
          (dot (mapVector3r w i) (mapVector3r u i)
            - ∑ s in Finset.range (visco.m_model.numberOfNeighbors 0 i),
                couplingTerm tm visco u w i (visco.m_model.getNeighbor 0 i s)) := by
  rw [innerProduct_eq_sum_dot]
  refine Finset.sum_congr rfl (fun i hi => ?_)
  have hi2 := Finset.mem_range.mp hi
  rw [matrixVecProd_slot tm visco u result i hi2, hb i hi2, add_zero, dot_sub_right,
    dot_smul_right, fluidSum, dot_sum_right, Finset.mul_sum]
  congr 1
  refine Finset.sum_congr rfl (fun s _ => ?_)
  simp only [matrixVecProd_fluidTerm, couplingTerm, dot_smul_right]

theorem couplingTerm_sub (tm : TimeManager K) (visco : SPH.Viscosity_Weiler2018 K)
    (k : Vector3r K → K) (hk : ∀ r, visco.m_model.gradW r = k r • r)
    (heven : ∀ r, k (-r) = k r) (u w : Nat → K) (i j : Nat)
    (hmass : visco.m_model.getMass i = visco.m_model.getMass j) :
    couplingTerm tm visco u w i j - couplingTerm tm visco w u i j
      = crossTerm tm visco k u w i j - crossTerm tm visco k u w j i := by
  have hx : visco.m_model.getPosition 0 j - visco.m_model.getPosition 0 i
      = -(visco.m_model.getPosition 0 i - visco.m_model.getPosition 0 j) := by abel
  simp only [couplingTerm, crossTerm, hk, hx, heven, squaredNorm_neg, dot_smul_right,
    dot_neg_right, dot_sub_left, hmass]
  ring

/-- The coupling of the pairs of neighbours is symmetric in the two vectors. -/
theorem couplingTerm_sum_symm (tm : TimeManager K) (visco : SPH.Viscosity_Weiler2018 K)
    (k : Vector3r K → K) (hk : ∀ r, visco.m_model.gradW r = k r • r)
    (heven : ∀ r, k (-r) = k r)
    (hmass : ∀ i j, i < visco.m_model.numActiveParticles →
      j < visco.m_model.numActiveParticles → visco.m_model.getMass i = visco.m_model.getMass j)
    (hnodup : ∀ i, i < visco.m_model.numActiveParticles → (neighborList visco i).Nodup)
    (hrange : ∀ i, i < visco.m_model.numActiveParticles →
      ∀ j, j ∈ neighborList visco i → j < visco.m_model.numActiveParticles)
    (hsymm : ∀ i j, i < visco.m_model.numActiveParticles →
      j < visco.m_model.numActiveParticles →
      (j ∈ neighborList visco i ↔ i ∈ neighborList visco j))
    (u w : Nat → K) :
    ∑ i in Finset.range visco.m_model.numActiveParticles,
        ∑ s in Finset.range (visco.m_model.numberOfNeighbors 0 i),
          couplingTerm tm visco u w i (visco.m_model.getNeighbor 0 i s)
      = ∑ i in Finset.range visco.m_model.numActiveParticles,
          ∑ s in Finset.range (visco.m_model.numberOfNeighbors 0 i),
            couplingTerm tm visco w u i (visco.m_model.getNeighbor 0 i s) := by
  have hslots : ∀ a b : Nat → K,
      ∑ i in Finset.range visco.m_model.numActiveParticles,
        ∑ s in Finset.range (visco.m_model.numberOfNeighbors 0 i),
          couplingTerm tm visco a b i (visco.m_model.getNeighbor 0 i s)
      = ∑ i in Finset.range visco.m_model.numActiveParticles,
          ∑ j in Finset.range visco.m_model.numActiveParticles,
            if j ∈ neighborList visco i then couplingTerm tm visco a b i j else 0 := by
    intro a b
    refine Finset.sum_congr rfl (fun i hi => ?_)
    have hi2 := Finset.mem_range.mp hi
    exact sum_neighbor_slots visco i _ (hnodup i hi2) (hrange i hi2)
      (couplingTerm tm visco a b i)
  have hswap :
      ∑ i in Finset.range visco.m_model.numActiveParticles,
          ∑ j in Finset.range visco.m_model.numActiveParticles,
            (if j ∈ neighborList visco i then crossTerm tm visco k u w j i else 0)
        = ∑ i in Finset.range visco.m_model.numActiveParticles,
            ∑ j in Finset.range visco.m_model.numActiveParticles,
              (if j ∈ neighborList visco i then crossTerm tm visco k u w i j else 0) := by
    rw [Finset.sum_comm]
    refine Finset.sum_congr rfl (fun j hj => Finset.sum_congr rfl (fun i hi => ?_))
    have hiff := hsymm i j (Finset.mem_range.mp hi) (Finset.mem_range.mp hj)
    by_cases hm : j ∈ neighborList visco i
    · rw [if_pos hm, if_pos (hiff.mp hm)]
    · rw [if_neg hm, if_neg (fun h => hm (hiff.mpr h))]
  rw [hslots u w, hslots w u, ← sub_eq_zero, ← Finset.sum_sub_distrib]
  have hterm : ∀ i, i ∈ Finset.range visco.m_model.numActiveParticles →
      (∑ j in Finset.range visco.m_model.numActiveParticles,
          (if j ∈ neighborList visco i then couplingTerm tm visco u w i j else 0))
        - ∑ j in Finset.range visco.m_model.numActiveParticles,
          (if j ∈ neighborList visco i then couplingTerm tm visco w u i j else 0)
      = (∑ j in Finset.range visco.m_model.numActiveParticles,
          (if j ∈ neighborList visco i then crossTerm tm visco k u w i j else 0))
        - ∑ j in Finset.range visco.m_model.numActiveParticles,
          (if j ∈ neighborList visco i then crossTerm tm visco k u w j i else 0) := by
    intro i hi
    rw [← Finset.sum_sub_distrib, ← Finset.sum_sub_distrib]
    refine Finset.sum_congr rfl (fun j hj => ?_)
    by_cases hm : j ∈ neighborList visco i
    · simp only [if_pos hm]
      exact couplingTerm_sub tm visco k hk heven u w i j
        (hmass i j (Finset.mem_range.mp hi) (Finset.mem_range.mp hj))
    · simp only [if_neg hm, sub_zero]
  rw [Finset.sum_congr rfl hterm, Finset.sum_sub_distrib, hswap, sub_self]

/-- C17. Self-adjointness of the operator: in a fluid-only configuration (zero
boundary viscosity or no boundary neighbours) in which all particle masses are
equal, the fluid neighbour relation is symmetric without duplicates (among the
active particles, whose coefficients the input vectors hold) and the kernel
gradient is radial (`∇W r = k r • r` with `k (−r) = k r`), the inner product of
`u` with `matrixVecProd w` is the inner product of `matrixVecProd u` with `w`,
for all `u`, `w` and arbitrary densities. -/
theorem matrixVecProd_selfAdjoint (tm : TimeManager K) (visco : SPH.Viscosity_Weiler2018 K)
    (k : Vector3r K → K) (hk : ∀ r, visco.m_model.gradW r = k r • r)
    (heven : ∀ r, k (-r) = k r)
    (hfluid : visco.m_boundaryViscosity = 0 ∨
      ∀ i, i < visco.m_model.numActiveParticles →
        ∀ pid, 1 ≤ pid → visco.m_model.numberOfNeighbors pid i = 0)
    (hmass : ∀ i j, i < visco.m_model.numActiveParticles →
      j < visco.m_model.numActiveParticles → visco.m_model.getMass i = visco.m_model.getMass j)
    (hnodup : ∀ i, i < visco.m_model.numActiveParticles → (neighborList visco i).Nodup)
    (hrange : ∀ i, i < visco.m_model.numActiveParticles →
      ∀ j, j ∈ neighborList visco i → j < visco.m_model.numActiveParticles)
    (hsymm : ∀ i j, i < visco.m_model.numActiveParticles →
      j < visco.m_model.numActiveParticles →
      (j ∈ neighborList visco i ↔ i ∈ neighborList visco j))
    (u w result1 result2 : Nat → K) :
    innerProduct (3 * visco.m_model.numActiveParticles) u (matrixVecProd tm w result1 visco)
      = innerProduct (3 * visco.m_model.numActiveParticles)
          (matrixVecProd tm u result2 visco) w := by
  have hb : ∀ v : Nat → K, ∀ i, i < visco.m_model.numActiveParticles →
      boundarySum visco v i = 0 := by
    intro v i hi
    rcases hfluid with h | h
    · exact boundarySum_of_boundaryViscosity_zero visco v i h
    · exact boundarySum_of_no_neighbors visco v i (h i hi)
  rw [innerProduct_comm _ (matrixVecProd tm u result2 visco) w,
    innerProduct_matrixVecProd tm visco w u result1 (hb w),
    innerProduct_matrixVecProd tm visco u w result2 (hb u),
    Finset.sum_sub_distrib, Finset.sum_sub_distrib,
    couplingTerm_sum_symm tm visco k hk heven hmass hnodup hrange hsymm w u]
  congr 1
  exact Finset.sum_congr rfl (fun i _ => dot_comm _ _)


/-- The neighbour lists of the two particle configuration. -/
theorem neighborList_viscoPair (i : Nat) : neighborList Example.viscoPair i = [1 - i] := by
  simp [neighborList, Example.viscoPair, ctor, Example.model]

theorem matrixVecProd_selfAdjoint_witness :
    (∀ r, Example.viscoPair.m_model.gradW r = (fun _ => (-1 : ℚ)) r • r) ∧
    (∀ r : Vector3r ℚ, (fun _ => (-1 : ℚ)) (-r) = (fun _ => (-1 : ℚ)) r) ∧
    (Example.viscoPair.m_boundaryViscosity = 0 ∨
      ∀ i, i < Example.viscoPair.m_model.numActiveParticles →
        ∀ pid, 1 ≤ pid → Example.viscoPair.m_model.numberOfNeighbors pid i = 0) ∧
    (∀ i j, i < Example.viscoPair.m_model.numActiveParticles →
      j < Example.viscoPair.m_model.numActiveParticles →
      Example.viscoPair.m_model.getMass i = Example.viscoPair.m_model.getMass j) ∧
    (∀ i, i < Example.viscoPair.m_model.numActiveParticles →
      (neighborList Example.viscoPair i).Nodup) ∧
    (∀ i, i < Example.viscoPair.m_model.numActiveParticles →
      ∀ j, j ∈ neighborList Example.viscoPair i →
        j < Example.viscoPair.m_model.numActiveParticles) ∧
    (∀ i j, i < Example.viscoPair.m_model.numActiveParticles →
      j < Example.viscoPair.m_model.numActiveParticles →
      (j ∈ neighborList Example.viscoPair i ↔ i ∈ neighborList Example.viscoPair j)) ∧
    innerProduct (3 * Example.viscoPair.m_model.numActiveParticles) Example.vec
        (matrixVecProd Example.tm (fun s => (s : ℚ) * s) Example.zeroVec Example.viscoPair)
      = innerProduct (3 * Example.viscoPair.m_model.numActiveParticles)
          (matrixVecProd Example.tm Example.vec Example.zeroVec Example.viscoPair)
          (fun s => (s : ℚ) * s) := by
  have hk : ∀ r, Example.viscoPair.m_model.gradW r = (fun _ => (-1 : ℚ)) r • r := by
    intro r
    simp [Example.viscoPair, ctor, Example.model]
  have heven : ∀ r : Vector3r ℚ, (fun _ => (-1 : ℚ)) (-r) = (fun _ => (-1 : ℚ)) r :=
    fun _ => rfl
  have hfluid : Example.viscoPair.m_boundaryViscosity = 0 ∨
      ∀ i, i < Example.viscoPair.m_model.numActiveParticles →
        ∀ pid, 1 ≤ pid → Example.viscoPair.m_model.numberOfNeighbors pid i = 0 := by
    refine Or.inr (fun i _ pid hp => ?_)
    have hp0 : pid ≠ 0 := by omega
    simp [Example.viscoPair, ctor, hp0]
  have hmass : ∀ i j, i < Example.viscoPair.m_model.numActiveParticles →
      j < Example.viscoPair.m_model.numActiveParticles →
      Example.viscoPair.m_model.getMass i = Example.viscoPair.m_model.getMass j :=
    fun _ _ _ _ => rfl
  have hN : Example.viscoPair.m_model.numActiveParticles = 2 := rfl
  have hnodup : ∀ i, i < Example.viscoPair.m_model.numActiveParticles →
      (neighborList Example.viscoPair i).Nodup := by
    intro i _
    rw [neighborList_viscoPair]
    exact List.nodup_singleton _
  have hrange : ∀ i, i < Example.viscoPair.m_model.numActiveParticles →
      ∀ j, j ∈ neighborList Example.viscoPair i →
        j < Example.viscoPair.m_model.numActiveParticles := by
    intro i hi j hj
    rw [neighborList_viscoPair, List.mem_singleton] at hj
    rw [hN] at hi ⊢
    omega
  have hsymm : ∀ i j, i < Example.viscoPair.m_model.numActiveParticles →
      j < Example.viscoPair.m_model.numActiveParticles →
      (j ∈ neighborList Example.viscoPair i ↔ i ∈ neighborList Example.viscoPair j) := by
    intro i j hi hj
    rw [hN] at hi hj
    rw [neighborList_viscoPair, neighborList_viscoPair, List.mem_singleton, List.mem_singleton]
    omega
  exact ⟨hk, heven, hfluid, hmass, hnodup, hrange, hsymm,
    matrixVecProd_selfAdjoint Example.tm Example.viscoPair (fun _ => -1) hk heven hfluid hmass
      hnodup hrange hsymm Example.vec (fun s => (s : ℚ) * s) Example.zeroVec Example.zeroVec⟩

end Viscosity_Weiler2018

end SPH
